import Mathlib

/-!
# snaas: notification pipeline and device endpoint reconciler

A shallow embedding of `core/device.go`, `core/pipieline.go` and `error/error.go`.

Conventions of the embedding:

* Go `uint64` identifiers are `Nat` (no arithmetic is performed on them).
* A Go function returning `(T, error)` returns `Except Error T`.
* Collaborators (device store, push provider, user/object/connection stores) are
  passed as records of functions over an explicit world state `σ`; every call
  returns its result together with the next state.
* A Go `map` that is ranged over is a list of key/value pairs in the iteration
  order of the run.
* A Go pointer that may be `nil` is an `Option`; dereferencing `none` is the
  outcome `Result.nilDeref`.
-/

set_option linter.dupNamespace false

namespace Snaas

/-! ## error/error.go -/

/-- Error values. `ErrNotFound` and `ErrInvalidPlatform` are the sentinels of
`error/error.go`; `Wrapped` is its `*Error` struct. The remaining sentinels are
the ones the core refers to from packages outside of the source tree. -/
inductive Error where
  | ErrNotFound
  | ErrInvalidPlatform
  | ErrEndpointNotFound
  | ErrInvalidDevice
  | ErrInvalidEntity
  | Other (msg : String)
  | Wrapped (err : Error) (msg : String)
  deriving DecidableEq, Repr

/-- The `Error()` method: the sentinel texts of `errors.New`, and `e.msg` for the wrapper. -/
def Error.Error : Error → String
  | .ErrNotFound => "not found"
  | .ErrInvalidPlatform => "invalid platform"
  | .ErrEndpointNotFound => "endpoint not found"
  | .ErrInvalidDevice => "invalid device"
  | .ErrInvalidEntity => "invalid entity"
  | .Other msg => msg
  | .Wrapped _ msg => msg

/-- The constructor `Wrap(err, format, args...)`, the caller passing the already formatted text:
the message is `fmt.Sprintf("%s: %s", err, text)`. -/
def Wrap (err : Error) (text : String) : Error :=
  .Wrapped err (err.Error ++ ": " ++ text)

/-- The function `unwrapError`: one level of unwrapping for the wrapper, identity otherwise. -/
def unwrapError : Error → Error
  | .Wrapped err _ => err
  | e => e

/-- The predicate `IsNotFound`: whether err is `ErrNotFound`. -/
def IsNotFound (err : Error) : Bool := unwrapError err == .ErrNotFound

/-- The predicate `IsInvalidPlatform`: whether err is `ErrInvalidPlatform`. -/
def IsInvalidPlatform (err : Error) : Bool := unwrapError err == .ErrInvalidPlatform

/-- Modelled from the spec: `sns.IsEndpointNotFound` (package `platform/sns` is not in
the source tree); the kind *EndpointNotFound* is distinguishable from every other
provider failure, also through the error wrapper. -/
def IsEndpointNotFound (err : Error) : Bool := unwrapError err == .ErrEndpointNotFound

/-- Modelled from the spec: `device.IsInvalidDevice` (package `service/device` is not in
the source tree); `InvalidDevice` is a distinguishable failure kind. -/
def IsInvalidDevice (err : Error) : Bool := unwrapError err == .ErrInvalidDevice

/-- Modelled from the spec: `wrapError` of package core (its definition is not in the
source tree), the error-wrapping convention that preserves the original cause. -/
def wrapError (err : Error) (text : String) : Error := Wrap err text

/-! ## core/device.go: data -/

/-- The type `device.Platform`, with the three supported platforms. -/
inductive Platform where
  | PlatformIOSSandbox
  | PlatformIOS
  | PlatformAndroid
  deriving DecidableEq, Repr

/-- The record `device.Device`. -/
structure Device where
  Deleted : Bool
  DeviceID : String
  Disabled : Bool
  EndpointARN : String
  Language : String
  Platform : Platform
  Token : String
  UserID : Nat
  deriving DecidableEq, Repr

/-- The record `device.QueryOptions`; an unset pointer filter is `none`, an unset slice
filter is the empty list. -/
structure QueryOptions where
  Deleted : Option Bool := none
  DeviceIDs : List String := []
  Disabled : Option Bool := none
  EndpointARNs : List String := []
  Platforms : List Platform := []
  UserIDs : List Nat := []
  deriving DecidableEq, Repr

/-- The type `app.App`, reduced to the value of its `Namespace()` method. -/
structure App where
  Namespace : String
  deriving DecidableEq, Repr

/-- The type `Origin`, the acting principal. -/
structure Origin where
  UserID : Nat
  deriving DecidableEq, Repr

/-- The type `sns.Endpoint`. -/
structure Endpoint where
  ARN : String
  Token : String
  deriving DecidableEq, Repr

/-- The interface `device.Service` over a world state `σ`. -/
structure DeviceService (σ : Type) where
  Put : String → Device → σ → Except Error Device × σ
  Query : String → QueryOptions → σ → Except Error (List Device) × σ

/-- The three provider operations `DeviceSyncEndpoint` is closed over. -/
structure EndpointService (σ : Type) where
  EndpointCreate : String → String → σ → Except Error Endpoint × σ
  EndpointRetrieve : String → σ → Except Error Endpoint × σ
  EndpointUpdate : String → String → σ → Except Error Endpoint × σ

/-- The package variable `defaultDeleted`. -/
def defaultDeleted : Bool := false

/-! ## core/device.go: operations -/

/-- The function `DeviceDelete`: removes the device of a user. -/
def DeviceDelete {σ : Type} (devices : DeviceService σ)
    (currentApp : App) (origin : Origin) (deviceID : String) (s : σ) :
    Except Error Unit × σ :=
  match devices.Query currentApp.Namespace
      { Deleted := some defaultDeleted, DeviceIDs := [deviceID], UserIDs := [origin.UserID] } s with
  | (.error err, s1) => (.error err, s1)
  | (.ok [], s1) => (.ok (), s1)
  | (.ok (d0 :: _), s1) =>
    let d := { d0 with Deleted := true }
    match devices.Put currentApp.Namespace d s1 with
    | (.error err, s2) => (.error err, s2)
    | (.ok _, s2) => (.ok (), s2)

/-- The function `DeviceDisable`: disables the device for the given endpointARN. -/
def DeviceDisable {σ : Type} (devices : DeviceService σ)
    (currentApp : App) (endpointARN : String) (s : σ) : Except Error Unit × σ :=
  match devices.Query currentApp.Namespace
      { Deleted := some defaultDeleted, EndpointARNs := [endpointARN] } s with
  | (.error err, s1) => (.error err, s1)
  | (.ok [], s1) => (.ok (), s1)
  | (.ok (d0 :: _), s1) =>
    let d := { d0 with Disabled := true }
    match devices.Put currentApp.Namespace d s1 with
    | (.error err, s2) => (.error err, s2)
    | (.ok _, s2) => (.ok (), s2)

/-- The function `DeviceListUser`: returns all devices for origin. -/
def DeviceListUser {σ : Type} (devices : DeviceService σ)
    (currentApp : App) (origin : Nat) (s : σ) : Except Error (List Device) × σ :=
  devices.Query currentApp.Namespace
    { Deleted := some defaultDeleted,
      Disabled := some defaultDeleted,
      Platforms := [.PlatformIOSSandbox, .PlatformIOS, .PlatformAndroid],
      UserIDs := [origin] } s

/-- The function `DeviceSyncEndpoint`: creates the endpoint if not present, syncs tokens if different. -/
def DeviceSyncEndpoint {σ : Type} (devices : DeviceService σ) (sns : EndpointService σ)
    (currentApp : App) (platformARN : String) (input : Device) (s : σ) :
    Except Error Device × σ :=
  if input.EndpointARN = "" then
    match sns.EndpointCreate platformARN input.Token s with
    | (.error err, s1) => (.error err, s1)
    | (.ok e, s1) =>
      let input := { input with EndpointARN := e.ARN }
      devices.Put currentApp.Namespace input s1
  else
    match sns.EndpointRetrieve input.EndpointARN s with
    | (.error err, s1) =>
      if !IsEndpointNotFound err then (.error err, s1)
      else
        match sns.EndpointCreate platformARN input.Token s1 with
        | (.error err, s2) => (.error err, s2)
        | (.ok e, s2) =>
          let input := { input with EndpointARN := e.ARN }
          devices.Put currentApp.Namespace input s2
    | (.ok e, s1) =>
      if input.Token ≠ e.Token then
        match sns.EndpointUpdate input.EndpointARN input.Token s1 with
        | (.error err, s2) => (.error err, s2)
        | (.ok _, s2) => (.ok input, s2)
      else (.ok input, s1)

/-- The function `DeviceUpdate`: stores the device info in the given device service. -/
def DeviceUpdate {σ : Type} (devices : DeviceService σ)
    (currentApp : App) (origin : Origin) (deviceID : String) (platform : Platform)
    (token : String) (language : String) (s : σ) : Except Error Unit × σ :=
  match devices.Query currentApp.Namespace
      { Deleted := some defaultDeleted, DeviceIDs := [deviceID], UserIDs := [origin.UserID] } s with
  | (.error err, s1) => (.error err, s1)
  | (.ok ds, s1) =>
    if (match ds with | d0 :: _ => d0.Token == token | [] => false) then (.ok (), s1)
    else
      let d : Device :=
        match ds with
        | d0 :: _ => { d0 with Disabled := false, Token := token }
        | [] =>
          { Deleted := false, DeviceID := deviceID, Disabled := false, EndpointARN := "",
            Language := language, Platform := platform, Token := token,
            UserID := origin.UserID }
      match devices.Put currentApp.Namespace d s1 with
      | (.error err, s2) =>
        if IsInvalidDevice err then (.error (wrapError .ErrInvalidEntity err.Error), s2)
        else (.error err, s2)
      | (.ok _, s2) => (.ok (), s2)

/-! ## Call traces of the device operations -/

/-- One call to a collaborator of the device operations. -/
inductive Call where
  | Put (ns : String) (d : Device)
  | Query (ns : String) (opts : QueryOptions)
  | EndpointCreate (platformARN token : String)
  | EndpointRetrieve (arn : String)
  | EndpointUpdate (arn token : String)
  deriving DecidableEq, Repr

/-- The device service that behaves as `svc` and appends every call to a log. -/
def DeviceService.traced {σ : Type} (svc : DeviceService σ) : DeviceService (σ × List Call) where
  Put ns d s := ((svc.Put ns d s.1).1, ((svc.Put ns d s.1).2, s.2 ++ [Call.Put ns d]))
  Query ns opts s :=
    ((svc.Query ns opts s.1).1, ((svc.Query ns opts s.1).2, s.2 ++ [Call.Query ns opts]))

/-- The device service that behaves as `svc` on the second component of the state. -/
def DeviceService.onSnd {π σ : Type} (svc : DeviceService σ) : DeviceService (π × σ) where
  Put ns d s := ((svc.Put ns d s.2).1, (s.1, (svc.Put ns d s.2).2))
  Query ns opts s := ((svc.Query ns opts s.2).1, (s.1, (svc.Query ns opts s.2).2))

/-- The provider that behaves as `sns` and appends every call to a log. -/
def EndpointService.traced {σ : Type} (sns : EndpointService σ) :
    EndpointService (σ × List Call) where
  EndpointCreate p t s :=
    ((sns.EndpointCreate p t s.1).1,
      ((sns.EndpointCreate p t s.1).2, s.2 ++ [Call.EndpointCreate p t]))
  EndpointRetrieve a s :=
    ((sns.EndpointRetrieve a s.1).1,
      ((sns.EndpointRetrieve a s.1).2, s.2 ++ [Call.EndpointRetrieve a]))
  EndpointUpdate a t s :=
    ((sns.EndpointUpdate a t s.1).1,
      ((sns.EndpointUpdate a t s.1).2, s.2 ++ [Call.EndpointUpdate a t]))

/-- The number of `Put` calls in a log. -/
def putCount (log : List Call) : Nat :=
  log.countP (fun c => match c with | .Put _ _ => true | _ => false)

/-! ## Model of the push provider -/

/-- Modelled from the spec: the state of the push provider (package `platform/sns` is not
in the source tree), a map from endpoint ARN to token, as an association list read
front to back. -/
abbrev Provider := List (String × String)

/-- Modelled from the spec: the ARN handed out by the next `endpointCreate`; it is longer
than every ARN in use, hence fresh. -/
def freshARN (p : Provider) : String :=
  "arn:" ++ String.mk (List.replicate ((p.map (fun e => e.1.length)).foldl max 0 + 1) 'y')

/-- Modelled from the spec: the push endpoint provider over the map from ARN to token.
`endpointCreate` binds a fresh ARN to the token, `endpointRetrieve` reads the binding or
reports *EndpointNotFound*, `endpointUpdate` rebinds the token of a registered ARN. -/
def memSNS {δ : Type} : EndpointService (Provider × δ) where
  EndpointCreate _ token s :=
    (.ok { ARN := freshARN s.1, Token := token }, ((freshARN s.1, token) :: s.1, s.2))
  EndpointRetrieve arn s :=
    match s.1.lookup arn with
    | some token => (.ok { ARN := arn, Token := token }, s)
    | none => (.error .ErrEndpointNotFound, s)
  EndpointUpdate arn token s :=
    match s.1.lookup arn with
    | some _ => (.ok { ARN := arn, Token := token }, ((arn, token) :: s.1, s.2))
    | none => (.error .ErrEndpointNotFound, s)

/-! ## Model of the device store -/

/-- Modelled from the spec: the state of the device store (package `service/device` is not
in the source tree), the stored records with their namespace, in iteration order. -/
abbrev DeviceStore := List (String × Device)

/-- Modelled from the spec: whether a device passes the filters of `QueryOptions`; a filter
that is not set admits every device. -/
def QueryOptions.admits (opts : QueryOptions) (d : Device) : Bool :=
  (match opts.Deleted with | none => true | some b => d.Deleted == b) &&
  (opts.DeviceIDs.isEmpty || opts.DeviceIDs.contains d.DeviceID) &&
  (match opts.Disabled with | none => true | some b => d.Disabled == b) &&
  (opts.EndpointARNs.isEmpty || opts.EndpointARNs.contains d.EndpointARN) &&
  (opts.Platforms.isEmpty || opts.Platforms.contains d.Platform) &&
  (opts.UserIDs.isEmpty || opts.UserIDs.contains d.UserID)

/-- Modelled from the spec: whether a stored entry is the record of device `d` in
namespace `ns`, records being identified by (namespace, DeviceID, UserID). -/
def sameRecord (ns : String) (d : Device) (e : String × Device) : Bool :=
  e.1 == ns && e.2.DeviceID == d.DeviceID && e.2.UserID == d.UserID

/-- Modelled from the spec: the device store. `Query` returns the records of the namespace
that pass the filters; `Put` replaces the stored record of the device by the given one
(or adds it) and returns the device it was given. -/
def memDevices : DeviceService DeviceStore where
  Put ns d st := (.ok d, st.filter (fun e => !sameRecord ns d e) ++ [(ns, d)])
  Query ns opts st := (.ok ((st.filter (fun e => e.1 == ns && opts.admits e.2)).map (fun e => e.2)), st)

/-- Modelled from the spec: the device store with a write check (package `service/device`
is not in the source tree). `Put` fails with the error of the check when the check rejects
the write, leaving the store as it is, and otherwise writes as `memDevices` does; `Query`
is the one of `memDevices`. The check may depend on the namespace, the device and the
stored records, so that any failure of a write is covered. -/
def checkedDevices (reject : String → Device → DeviceStore → Option Error) :
    DeviceService DeviceStore where
  Put ns d st :=
    match reject ns d st with
    | some err => (.error err, st)
    | none => memDevices.Put ns d st
  Query ns opts st := memDevices.Query ns opts st

/-! ## core/pipieline.go: data -/

/-- The query condition `queryCondOwnerFriends`. -/
def queryCondOwnerFriends : String := "ownerFriends"

/-- The query condition `queryCondObjectOwner`. -/
def queryCondObjectOwner : String := "objectOwner"

/-- The query condition `queryCondOwner`. -/
def queryCondOwner : String := "owner"

/-- The query condition `queryCondParentOwner`. -/
def queryCondParentOwner : String := "parentOwner"

/-- The query condition `queryCondUserFrom`. -/
def queryCondUserFrom : String := "userFrom"

/-- The query condition `queryCondUserTo`. -/
def queryCondUserTo : String := "userTo"

/-- The value of `language.English.String()`. -/
def languageEnglish : String := "en"

/-- The envelope `Message`: the templated message with its recipient and URN. -/
structure Message where
  Message : String
  Recipient : Nat
  URN : String
  deriving DecidableEq, Repr

/-- The record `user.User`, with the fields the core and the scenarios refer to. -/
structure User where
  ID : Nat
  Username : String
  deriving DecidableEq, Repr

/-- The record `object.Object`, with the fields the core refers to. -/
structure Object where
  ID : Nat
  ObjectID : Nat
  OwnerID : Nat
  deriving DecidableEq, Repr

/-- The record `event.Event`, with the fields the core refers to. -/
structure Event where
  ID : Nat
  ObjectID : Nat
  UserID : Nat
  deriving DecidableEq, Repr

/-- The record `connection.Connection`, with the fields the core refers to. -/
structure Connection where
  FromID : Nat
  ToID : Nat
  deriving DecidableEq, Repr

/-- The records `connection.StateChange`, `event.StateChange` and `object.StateChange`:
a pair of pointers. -/
structure StateChange (α : Type) where
  Old : Option α
  New : Option α
  deriving DecidableEq, Repr

/-- The record `object.QueryOptions`: the two fields the core sets, and the remaining
filter fields as decoded from the rule, which the core passes through untouched. -/
structure ObjectQueryOptions where
  Before : Nat := 0
  ID : Option Nat := none
  Filters : String := ""
  deriving DecidableEq, Repr

/-- The type `rule.Query`, a map from condition tag to template, in iteration order. -/
abbrev Query := List (String × String)

/-- The record `rule.Recipient`. -/
structure Recipient where
  Query : Query
  Templates : List (String × String)
  URN : String
  deriving DecidableEq, Repr

/-- The record `rule.Rule` for a change over `α`; `Match` is `r.Criteria.Match`. -/
structure Rule (α : Type) where
  Match : StateChange α → Bool
  Recipients : List Recipient

/-- Indexing of a Go `map[string]string`: the zero value when the key is absent. -/
def mapIndex (m : List (String × String)) (k : String) : String :=
  (m.lookup k).getD ""

/-- The outcome of a function that returns `(T, error)` and may dereference a nil pointer. -/
inductive Result (α : Type) where
  | ok (a : α)
  | err (e : Error)
  | nilDeref
  deriving DecidableEq, Repr

/-- The user store as the core reaches it: through `UserFetch(users)` and
`user.ListFromIDs(users, ...)`. -/
structure UserService (σ : Type) where
  UserFetch : App → Nat → σ → Except Error User × σ
  ListFromIDs : String → List Nat → σ → Except Error (List User) × σ

/-- The interface `object.Service`, with the method `OwnerIDs` of the returned list. -/
structure ObjectService (σ : Type) where
  Query : String → ObjectQueryOptions → σ → Except Error (List Object) × σ
  OwnerIDs : List Object → List Nat

/-- The connection store as the core reaches it: through `ConnectionFriendIDs(connections)`. -/
structure ConnectionService (σ : Type) where
  ConnectionFriendIDs : App → Nat → σ → Except Error (List Nat) × σ

/-- The facilities of `text/template` over contexts of type `κ`: `template.New(name).Parse(t)`
and `tmpl.Execute(buf, context)` returning the buffer. -/
structure Template (τ κ : Type) where
  Parse : String → String → Except Error τ
  Execute : τ → κ → Except Error String

/-- The remaining standard library facilities: `time.Now` and `json.Unmarshal` into
`object.QueryOptions`. -/
structure Host (σ : Type) where
  Now : σ → Nat × σ
  Unmarshal : String → Except Error ObjectQueryOptions

/-- The record `contextConnection`. -/
structure contextConnection where
  Conenction : Connection
  From : User
  To : User
  deriving DecidableEq, Repr

/-- The record `contextEvent`. -/
structure contextEvent where
  Event : Snaas.Event
  Owner : User
  Parent : Option Object
  ParentOwner : Option User
  deriving DecidableEq, Repr

/-- The record `contextObject`. -/
structure contextObject where
  Object : Snaas.Object
  Owner : User
  Parent : Option Snaas.Object
  ParentOwner : Option User
  deriving DecidableEq, Repr

/-! ## core/pipieline.go: helpers and resolvers -/

/-- The function `compileTemplate`: parses and executes a template against a context. -/
def compileTemplate {τ κ : Type} (tpl : Template τ κ) (context : κ) (t : String) :
    Except Error String :=
  match tpl.Parse "message" t with
  | .error err => .error err
  | .ok tmpl =>
    match tpl.Execute tmpl context with
    | .error err => .error err
    | .ok buf => .ok buf

/-- The function `filterIDs`: the loop over `fs` fills the set `seen`, the loop over `ids` appends
every id that is not in `seen`. -/
def filterIDs (ids : List Nat) (fs : List Nat) : List Nat :=
  let seen : List Nat := fs.foldl (fun seen id => id :: seen) []
  ids.foldl (fun is id => if seen.contains id then is else is ++ [id]) []

/-- The function `objectFetch`: the object with the given id, which has to be the only match. -/
def objectFetch {σ : Type} (objects : ObjectService σ) (currentApp : App) (id : Nat) (s : σ) :
    Except Error Object × σ :=
  match objects.Query currentApp.Namespace { ID := some id } s with
  | (.error err, s1) => (.error err, s1)
  | (.ok [o], s1) => (.ok o, s1)
  | (.ok _, s1) =>
    (.error (Wrap .ErrNotFound ("object missign for \x27" ++ toString id ++ "\x27")), s1)

/-- The function `ownerIDsFetch`: bounds the query by the current time and returns the owners. -/
def ownerIDsFetch {σ : Type} (host : Host σ) (objects : ObjectService σ) (ns : String)
    (opts : ObjectQueryOptions) (s : σ) : Except Error (List Nat) × σ :=
  let opts := { opts with Before := (host.Now s).1 }
  match objects.Query ns opts (host.Now s).2 with
  | (.error err, s1) => (.error err, s1)
  | (.ok os, s1) => (.ok (objects.OwnerIDs os), s1)

/-- The function `queryOptsFromTemplate`: renders the template and decodes it as query options. -/
def queryOptsFromTemplate {τ σ : Type} (host : Host σ) (tpl : Template τ contextObject)
    (context : contextObject) (t : String) : Except Error ObjectQueryOptions :=
  match tpl.Parse "onwerIDs" t with
  | .error err => .error err
  | .ok tmpl =>
    match tpl.Execute tmpl context with
    | .error err => .error err
    | .ok buf =>
      match host.Unmarshal buf with
      | .error err => .error err
      | .ok opts => .ok opts

/-- The loop over the query of `objectRecipients`, accumulating `ids`. -/
def objectRecipientsLoop {τ σ : Type} (host : Host σ) (tpl : Template τ contextObject)
    (connections : ConnectionService σ) (objects : ObjectService σ)
    (currentApp : App) (context : contextObject) :
    Query → List Nat → σ → Result (List Nat) × σ
  | [], ids, s => (.ok ids, s)
  | (condType, condTemplate) :: q, ids, s =>
    if condType = queryCondObjectOwner then
      match queryOptsFromTemplate host tpl context condTemplate with
      | .error err => (.err err, s)
      | .ok opts =>
        match ownerIDsFetch host objects currentApp.Namespace opts s with
        | (.error err, s1) => (.err err, s1)
        | (.ok ownerIDs, s1) =>
          objectRecipientsLoop host tpl connections objects currentApp context q
            (ids ++ ownerIDs) s1
    else if condType = queryCondOwnerFriends then
      match connections.ConnectionFriendIDs currentApp context.Owner.ID s with
      | (.error err, s1) => (.err err, s1)
      | (.ok friendIDs, s1) =>
        objectRecipientsLoop host tpl connections objects currentApp context q
          (ids ++ friendIDs) s1
    else if condType = queryCondOwner then
      match context.ParentOwner with
      | none => (.nilDeref, s)
      | some parentOwner =>
        objectRecipientsLoop host tpl connections objects currentApp context q
          (ids ++ [parentOwner.ID]) s
    else objectRecipientsLoop host tpl connections objects currentApp context q ids s

/-- The function `objectRecipients`: accumulates the ids of the query, filters out the owner and
materialises the users. -/
def objectRecipients {τ σ : Type} (host : Host σ) (tpl : Template τ contextObject)
    (connections : ConnectionService σ) (objects : ObjectService σ) (users : UserService σ)
    (currentApp : App) (context : contextObject) (q : Query) (s : σ) :
    Result (List (Option User)) × σ :=
  match objectRecipientsLoop host tpl connections objects currentApp context q [] s with
  | (.err err, s1) => (.err err, s1)
  | (.nilDeref, s1) => (.nilDeref, s1)
  | (.ok ids, s1) =>
    let ids := filterIDs ids [context.Owner.ID]
    match users.ListFromIDs currentApp.Namespace ids s1 with
    | (.error err, s2) => (.err err, s2)
    | (.ok us, s2) => (.ok (us.map some), s2)

/-- The function `recipientsConnection`: the `From` and `To` users the query asks for. -/
def recipientsConnection (_currentApp : App) (context : contextConnection) (q : Query) :
    Result (List (Option User)) :=
  .ok (q.foldl (fun us cond =>
    if cond.1 = queryCondUserFrom then us ++ [some context.From]
    else if cond.1 = queryCondUserTo then us ++ [some context.To]
    else us) [])

/-- The function `recipientsEvent`: the `ParentOwner` pointer when the query asks for it. -/
def recipientsEvent (_currentApp : App) (context : contextEvent) (q : Query) :
    Result (List (Option User)) :=
  .ok (q.foldl (fun us cond =>
    if cond.1 = queryCondParentOwner then us ++ [context.ParentOwner]
    else us) [])

/-! ## core/pipieline.go: dispatchers

The three dispatchers run the same loops over rules, recipients and resolved users
(lines 84-109, 168-193 and 256-285); they differ in the resolver and the context. -/

/-- The innermost loop: one message per resolved user `r`, appended to `ms`. -/
def pipelineUsers (compile : String → Except Error String) (recipient : Recipient) :
    List (Option User) → List Message → Result (List Message)
  | [], ms => .ok ms
  | r :: rs, ms =>
    match compile recipient.URN with
    | .error err => .err err
    | .ok urn =>
      match compile (mapIndex recipient.Templates languageEnglish) with
      | .error err => .err err
      | .ok msg =>
        match r with
        | none => .nilDeref
        | some r =>
          pipelineUsers compile recipient rs
            (ms ++ [{ Message := msg, Recipient := r.ID, URN := urn }])

/-- The loop over the recipients of one rule. -/
def pipelineRecipients {σ : Type} (resolve : Query → σ → Result (List (Option User)) × σ)
    (compile : String → Except Error String) :
    List Recipient → List Message → σ → Result (List Message) × σ
  | [], ms, s => (.ok ms, s)
  | recipient :: recipients, ms, s =>
    match resolve recipient.Query s with
    | (.err err, s1) => (.err err, s1)
    | (.nilDeref, s1) => (.nilDeref, s1)
    | (.ok rs, s1) =>
      match pipelineUsers compile recipient rs ms with
      | .err err => (.err err, s1)
      | .nilDeref => (.nilDeref, s1)
      | .ok ms => pipelineRecipients resolve compile recipients ms s1

/-- The loop over the rules; rules whose criteria do not match are skipped. -/
def pipelineRules {α σ : Type} (resolve : Query → σ → Result (List (Option User)) × σ)
    (compile : String → Except Error String) (change : StateChange α) :
    List (Rule α) → List Message → σ → Result (List Message) × σ
  | [], ms, s => (.ok ms, s)
  | r :: rules, ms, s =>
    if !r.Match change then pipelineRules resolve compile change rules ms s
    else
      match pipelineRecipients resolve compile r.Recipients ms s with
      | (.err err, s1) => (.err err, s1)
      | (.nilDeref, s1) => (.nilDeref, s1)
      | (.ok ms, s1) => pipelineRules resolve compile change rules ms s1

/-- The function `PipelineConnection`: the messages the rules produce for a connection change. -/
def PipelineConnection {τ σ : Type} (tpl : Template τ contextConnection)
    (users : UserService σ)
    (currentApp : App) (change : StateChange Connection) (rules : List (Rule Connection))
    (s : σ) : Result (List Message) × σ :=
  match change.New with
  | none => (.ok [], s)
  | some c =>
    match users.UserFetch currentApp c.FromID s with
    | (.error err, s1) => (.err err, s1)
    | (.ok userFrom, s1) =>
      match users.UserFetch currentApp c.ToID s1 with
      | (.error err, s2) => (.err err, s2)
      | (.ok userTo, s2) =>
        let context : contextConnection := { Conenction := c, From := userFrom, To := userTo }
        pipelineRules (fun q s => (recipientsConnection currentApp context q, s))
          (compileTemplate tpl context) change rules [] s2

/-- The context construction of `PipelineEvent` (lines 144-166). -/
def eventContext {σ : Type} (objects : ObjectService σ) (users : UserService σ)
    (currentApp : App) (e : Event) (s : σ) : Except Error contextEvent × σ :=
  match users.UserFetch currentApp e.UserID s with
  | (.error err, s1) => (.error err, s1)
  | (.ok owner, s1) =>
    if e.ObjectID ≠ 0 then
      match objectFetch objects currentApp e.ObjectID s1 with
      | (.error err, s2) => (.error err, s2)
      | (.ok parent, s2) =>
        match users.UserFetch currentApp parent.OwnerID s2 with
        | (.error err, s3) => (.error err, s3)
        | (.ok parentOwner, s3) =>
          (.ok { Event := e, Owner := owner, Parent := some parent,
                 ParentOwner := some parentOwner }, s3)
    else (.ok { Event := e, Owner := owner, Parent := none, ParentOwner := none }, s1)

/-- The function `PipelineEvent`: the messages the rules produce for an event change. -/
def PipelineEvent {τ σ : Type} (tpl : Template τ contextEvent)
    (objects : ObjectService σ) (users : UserService σ)
    (currentApp : App) (change : StateChange Event) (rules : List (Rule Event))
    (s : σ) : Result (List Message) × σ :=
  match change.New with
  | none => (.nilDeref, s)
  | some e =>
    match eventContext objects users currentApp e s with
    | (.error err, s1) => (.err err, s1)
    | (.ok context, s1) =>
      pipelineRules (fun q s => (recipientsEvent currentApp context q, s))
        (compileTemplate tpl context) change rules [] s1

/-- The context construction of `PipelineObject` (lines 232-254). -/
def objectContext {σ : Type} (objects : ObjectService σ) (users : UserService σ)
    (currentApp : App) (o : Object) (s : σ) : Except Error contextObject × σ :=
  match users.UserFetch currentApp o.OwnerID s with
  | (.error err, s1) => (.error err, s1)
  | (.ok owner, s1) =>
    if o.ObjectID ≠ 0 then
      match objectFetch objects currentApp o.ObjectID s1 with
      | (.error err, s2) => (.error err, s2)
      | (.ok parent, s2) =>
        match users.UserFetch currentApp parent.OwnerID s2 with
        | (.error err, s3) => (.error err, s3)
        | (.ok parentOwner, s3) =>
          (.ok { Object := o, Owner := owner, Parent := some parent,
                 ParentOwner := some parentOwner }, s3)
    else (.ok { Object := o, Owner := owner, Parent := none, ParentOwner := none }, s1)

/-- The function `PipelineObject`: the messages the rules produce for an object change. -/
def PipelineObject {τ σ : Type} (host : Host σ) (tpl : Template τ contextObject)
    (connections : ConnectionService σ) (objects : ObjectService σ) (users : UserService σ)
    (currentApp : App) (change : StateChange Object) (rules : List (Rule Object))
    (s : σ) : Result (List Message) × σ :=
  match change.New with
  | none => (.ok [], s)
  | some o =>
    match objectContext objects users currentApp o s with
    | (.error err, s1) => (.err err, s1)
    | (.ok context, s1) =>
      pipelineRules (objectRecipients host tpl connections objects users currentApp context)
        (compileTemplate tpl context) change rules [] s1

/-! ## The ordering contract of the dispatchers, in the words of the specification -/

/-- The recipient specifications of the rules whose criteria match the change: rules in
input order, then each rule's recipients in list order. -/
def matchingRecipients {α : Type} (change : StateChange α) (rules : List (Rule α)) :
    List Recipient :=
  (rules.filter (fun r => r.Match change)).flatMap (fun r => r.Recipients)

/-- The successive resolver calls for a list of recipient specifications, from state `s`
to state `s1`: each specification is paired with the users the resolver returned for
its query, every call starting in the state the previous one left. -/
inductive Resolved {σ : Type} (resolve : Query → σ → Result (List (Option User)) × σ) :
    List Recipient → σ → List (Recipient × List User) → σ → Prop where
  | nil (s : σ) : Resolved resolve [] s [] s
  | cons {recipient : Recipient} {recipients : List Recipient} {us : List User}
      {rest : List (Recipient × List User)} {s s1 s2 : σ} :
      resolve recipient.Query s = (.ok (us.map some), s1) →
      Resolved resolve recipients s1 rest s2 →
      Resolved resolve (recipient :: recipients) s ((recipient, us) :: rest) s2

/-- The message `m` is the one message for the user `p.2` resolved for the specification
`p.1`: addressed to the user, with the rendered URN template and the rendered English
body template. -/
def Emitted (compile : String → Except Error String) (m : Message) (p : Recipient × User) :
    Prop :=
  m.Recipient = p.2.ID ∧ compile p.1.URN = .ok m.URN ∧
    compile (mapIndex p.1.Templates languageEnglish) = .ok m.Message

/-- The resolved users in order: specification by specification, then in returned order. -/
def expand (resolved : List (Recipient × List User)) : List (Recipient × User) :=
  resolved.flatMap (fun p => p.2.map (fun u => (p.1, u)))

/-- The ordering contract: `ms` is the concatenation, over the recipient specifications of
the matching rules and the users resolved for each, of one message per user. -/
def Dispatched {α σ : Type} (resolve : Query → σ → Result (List (Option User)) × σ)
    (compile : String → Except Error String) (change : StateChange α)
    (rules : List (Rule α)) (s : σ) (ms : List Message) (s1 : σ) : Prop :=
  ∃ resolved, Resolved resolve (matchingRecipients change rules) s resolved s1 ∧
    List.Forall₂ (Emitted compile) ms (expand resolved)

/-! ## Fixtures: the scenarios of the device operations -/

/-- The world of the device scenarios: provider state and device store. -/
abbrev World := Provider × DeviceStore

/-- The application of the scenarios. -/
def appA1 : App := { Namespace := "app_1_1" }

/-- The device of scenario D: endpoint `arn:x`, token `t1`. -/
def deviceD : Device :=
  { Deleted := false, DeviceID := "d-1", Disabled := false, EndpointARN := "arn:x",
    Language := "en", Platform := .PlatformIOS, Token := "t1", UserID := 7 }

/-- The device of scenario E: endpoint `arn:y`, token `t2`. -/
def deviceE : Device := { deviceD with EndpointARN := "arn:y", Token := "t2" }

/-- The device of scenario D after the reconciler disabled it. -/
def deviceDisabled : Device := { deviceD with Disabled := true }

/-- A write check that rejects a device without token as an invalid device. -/
def rejectEmptyToken (_ns : String) (d : Device) (_st : DeviceStore) : Option Error :=
  if d.Token = "" then some (Wrap .ErrInvalidDevice "Token must be set") else none

/-- A provider that is unavailable: every operation fails with a provider error. -/
def downSNS : EndpointService World where
  EndpointCreate _ _ s := (.error (.Other "provider unavailable"), s)
  EndpointRetrieve _ s := (.error (.Other "provider unavailable"), s)
  EndpointUpdate _ _ s := (.error (.Other "provider unavailable"), s)

/-! ## Fixtures: the scenarios of the pipelines -/

/-- The world of the pipeline scenarios: a clock, and the id lists the user store was
asked to materialise. -/
structure PipelineWorld where
  Clock : Nat
  Lookups : List (List Nat)
  deriving DecidableEq, Repr

/-- The initial world of the scenarios. -/
def world0 : PipelineWorld := { Clock := 100, Lookups := [] }

/-- The users of the scenarios. -/
def userTable : List User :=
  [{ ID := 3, Username := "carol" }, { ID := 4, Username := "dave" },
   { ID := 5, Username := "erin" }, { ID := 7, Username := "ada" },
   { ID := 9, Username := "babbage" }, { ID := 11, Username := "grace" }]

/-- The objects of the scenarios: object 42 owned by user 11, object 43 owned by user 4, and
object 50, a reply of user 3 to object 43. -/
def objectTable : List Object :=
  [{ ID := 42, ObjectID := 0, OwnerID := 11 }, { ID := 43, ObjectID := 0, OwnerID := 4 },
   { ID := 50, ObjectID := 43, OwnerID := 3 }]

/-- A user store over `userTable`: a fetch needs exactly one match, a bulk lookup returns
the users of the requested ids and records the request. -/
def tableUsers : UserService PipelineWorld where
  UserFetch _ id s :=
    match userTable.filter (fun u => u.ID == id) with
    | [u] => (.ok u, s)
    | _ => (.error (Wrap .ErrNotFound "user missing"), s)
  ListFromIDs _ ids s :=
    (.ok (ids.filterMap (fun id => userTable.find? (fun u => u.ID == id))),
      { s with Lookups := s.Lookups ++ [ids] })

/-- An object store over `objectTable`, filtered by the `ID` of the query options. -/
def tableObjects : ObjectService PipelineWorld where
  Query _ opts s :=
    (.ok (objectTable.filter (fun o =>
      match opts.ID with
      | none => true
      | some id => o.ID == id)), s)
  OwnerIDs os := os.map (fun o => o.OwnerID)

/-- A connection store in which the friends of user 3 are reported as 3, 4 and 5. -/
def tableConnections : ConnectionService PipelineWorld where
  ConnectionFriendIDs _ id s := (.ok (if id = 3 then [3, 4, 5] else []), s)

/-- A template facility for literal templates: every text parses and renders to itself. -/
def literalTemplate (κ : Type) : Template String κ where
  Parse _ t := .ok t
  Execute tmpl _ := .ok tmpl

/-- A host whose clock ticks on every reading and whose decoder keeps the text as filter. -/
def tableHost : Host PipelineWorld where
  Now s := (s.Clock, { s with Clock := s.Clock + 1 })
  Unmarshal buf := .ok { Filters := buf }

/-- The context of scenario C extended by a parent: object 50 of owner 3, whose parent 43
is owned by user 4. -/
def contextC : contextObject :=
  { Object := { ID := 50, ObjectID := 43, OwnerID := 3 },
    Owner := { ID := 3, Username := "carol" },
    Parent := some { ID := 43, ObjectID := 0, OwnerID := 4 },
    ParentOwner := some { ID := 4, Username := "dave" } }

/-- The connection change of scenario A: user 7 asks to connect to user 9. -/
def changeA : StateChange Connection := { Old := none, New := some { FromID := 7, ToID := 9 } }

/-- The rule of scenario A, with literal templates: notify the `To` user. -/
def ruleA : Rule Connection :=
  { Match := fun change => change.New.isSome,
    Recipients := [{ Query := [("userTo", "")],
                     Templates := [("en", "ada wants to connect")],
                     URN := "tapglue/connection/7" }] }

/-- A rule that never matches. -/
def ruleNever (α : Type) : Rule α :=
  { Match := fun _ => false,
    Recipients := [{ Query := [("userFrom", ""), ("parentOwner", ""), ("ownerFriends", "")],
                     Templates := [("en", "never")], URN := "tapglue/never" }] }

/-- The event change of scenario B: user 5 comments on object 42, owned by user 11. -/
def changeB : StateChange Event :=
  { Old := none, New := some { ID := 1, ObjectID := 42, UserID := 5 } }

/-- The event change of scenario B without a parent: the event's ObjectID is zero. -/
def changeB0 : StateChange Event :=
  { Old := none, New := some { ID := 1, ObjectID := 0, UserID := 5 } }

/-- The rule of scenario B, with literal templates: notify the owner of the parent. -/
def ruleB : Rule Event :=
  { Match := fun _ => true,
    Recipients := [{ Query := [("parentOwner", "")],
                     Templates := [("en", "new reply")],
                     URN := "tapglue/event/1" }] }

/-- The object change of scenario C: an object of owner 3 without parent. -/
def changeC : StateChange Object :=
  { Old := none, New := some { ID := 60, ObjectID := 0, OwnerID := 3 } }

/-- The rule of scenario C, with literal templates: notify the friends of the owner. -/
def ruleC : Rule Object :=
  { Match := fun _ => true,
    Recipients := [{ Query := [("ownerFriends", "")],
                     Templates := [("en", "new post")],
                     URN := "tapglue/object/60" }] }

/-- The message of scenario A. -/
def messageA : Message :=
  { Message := "ada wants to connect", Recipient := 9, URN := "tapglue/connection/7" }

/-- The message of scenario B. -/
def messageB : Message := { Message := "new reply", Recipient := 11, URN := "tapglue/event/1" }

/-- The messages of scenario C: one for friend 4 and one for friend 5. -/
def messagesC : List Message :=
  [{ Message := "new post", Recipient := 4, URN := "tapglue/object/60" },
   { Message := "new post", Recipient := 5, URN := "tapglue/object/60" }]

/-- The world after scenario C: the user store was asked for the ids 4 and 5. -/
def worldC : PipelineWorld := { Clock := 100, Lookups := [[4, 5]] }

/-! ## Theorems: instrumentation and models -/

/-- A left fold with `max` bounds its seed and every element. -/
theorem le_foldl_max (l : List Nat) (a : Nat) : a ≤ l.foldl max a ∧ ∀ x ∈ l, x ≤ l.foldl max a := by
  induction l generalizing a with
  | nil => simp
  | cons y l ih =>
    simp only [List.foldl_cons, List.mem_cons, forall_eq_or_imp]
    obtain ⟨h1, h2⟩ := ih (max a y)
    exact ⟨le_trans (le_max_left _ _) h1, le_trans (le_max_right _ _) h1, h2⟩

/-- The ARN handed out by the model provider is not registered yet. -/
theorem freshARN_fresh (p : Provider) : p.lookup (freshARN p) = none := by
  rw [List.lookup_eq_none_iff]
  intro e he
  rw [bne_iff_ne]
  intro hc
  have hlen : e.1.length ≤ (p.map (fun e => e.1.length)).foldl max 0 :=
    (le_foldl_max _ 0).2 _ (List.mem_map.2 ⟨e, he, rfl⟩)
  have hc1 : freshARN p = e.1 := hc
  have : (freshARN p).length = 4 + ((p.map (fun e => e.1.length)).foldl max 0 + 1) := by
    simp [freshARN, String.length_append]
    rfl
  rw [hc1] at this
  omega

/-- Logging the calls changes neither the result nor the state of `DeviceSyncEndpoint`. -/
theorem DeviceSyncEndpoint_traced {σ : Type} (devices : DeviceService σ)
    (sns : EndpointService σ) (currentApp : App) (platformARN : String) (input : Device)
    (s : σ) (log : List Call) :
    (DeviceSyncEndpoint devices.traced sns.traced currentApp platformARN input (s, log)).1 =
      (DeviceSyncEndpoint devices sns currentApp platformARN input s).1 ∧
    (DeviceSyncEndpoint devices.traced sns.traced currentApp platformARN input (s, log)).2.1 =
      (DeviceSyncEndpoint devices sns currentApp platformARN input s).2 := by
  unfold DeviceSyncEndpoint
  simp only [DeviceService.traced, EndpointService.traced]
  split
  · rcases h : sns.EndpointCreate platformARN input.Token s with ⟨r, s1⟩
    cases r <;> simp
  · rcases h : sns.EndpointRetrieve input.EndpointARN s with ⟨r, s1⟩
    cases r with
    | error err =>
      simp only
      split
      · simp
      · rcases h2 : sns.EndpointCreate platformARN input.Token s1 with ⟨r2, s2⟩
        cases r2 <;> simp
    | ok e =>
      simp only
      split
      · rcases h2 : sns.EndpointUpdate input.EndpointARN input.Token s1 with ⟨r2, s2⟩
        cases r2 <;> simp
      · simp

/-- Logging the calls changes neither the result nor the state of `DeviceUpdate`. -/
theorem DeviceUpdate_traced {σ : Type} (devices : DeviceService σ) (currentApp : App)
    (origin : Origin) (deviceID : String) (platform : Platform) (token language : String)
    (s : σ) (log : List Call) :
    (DeviceUpdate devices.traced currentApp origin deviceID platform token language
      (s, log)).1 =
      (DeviceUpdate devices currentApp origin deviceID platform token language s).1 ∧
    (DeviceUpdate devices.traced currentApp origin deviceID platform token language
      (s, log)).2.1 =
      (DeviceUpdate devices currentApp origin deviceID platform token language s).2 := by
  unfold DeviceUpdate
  simp only [DeviceService.traced]
  rcases h : devices.Query currentApp.Namespace
    { Deleted := some defaultDeleted, DeviceIDs := [deviceID], UserIDs := [origin.UserID] } s
    with ⟨r, s1⟩
  cases r with
  | error err => simp
  | ok ds =>
    cases ds with
    | nil =>
      simp only [Bool.false_eq_true, if_false]
      rcases hp : devices.Put currentApp.Namespace
        { Deleted := false, DeviceID := deviceID, Disabled := false, EndpointARN := "",
          Language := language, Platform := platform, Token := token,
          UserID := origin.UserID } s1 with ⟨r2, s2⟩
      cases r2 with
      | error err => by_cases hi : IsInvalidDevice err = true <;> simp [hi]
      | ok d => simp
    | cons d0 rest =>
      by_cases ht : (d0.Token == token) = true
      · simp [ht]
      · simp only [ht, if_false]
        rcases hp : devices.Put currentApp.Namespace
          { d0 with Disabled := false, Token := token } s1 with ⟨r2, s2⟩
        cases r2 with
        | error err => by_cases hi : IsInvalidDevice err = true <;> simp [hi]
        | ok d => simp

/-- Logging the calls changes neither the result nor the state of `DeviceDelete`. -/
theorem DeviceDelete_traced {σ : Type} (devices : DeviceService σ) (currentApp : App)
    (origin : Origin) (deviceID : String) (s : σ) (log : List Call) :
    (DeviceDelete devices.traced currentApp origin deviceID (s, log)).1 =
      (DeviceDelete devices currentApp origin deviceID s).1 ∧
    (DeviceDelete devices.traced currentApp origin deviceID (s, log)).2.1 =
      (DeviceDelete devices currentApp origin deviceID s).2 := by
  unfold DeviceDelete
  simp only [DeviceService.traced]
  rcases h : devices.Query currentApp.Namespace
    { Deleted := some defaultDeleted, DeviceIDs := [deviceID], UserIDs := [origin.UserID] } s
    with ⟨r, s1⟩
  cases r with
  | error err => simp
  | ok ds =>
    cases ds with
    | nil => simp
    | cons d0 rest =>
      simp only
      rcases h2 : devices.Put currentApp.Namespace { d0 with Deleted := true } s1 with ⟨r2, s2⟩
      cases r2 <;> simp

/-! ## Theorems: device endpoint reconciler -/

/-- C2 (reconcile recreation): for a device with a non-empty EndpointARN, when
`endpointRetrieve` fails with EndpointNotFound and `endpointCreate(platformARN, Token)`
succeeds with endpoint `e`, the calls made are exactly retrieve, create and one `Put`
of the input with `EndpointARN = e.ARN` (all other fields untouched), `endpointUpdate`
is not called, and the result is what `Put` returns; when `endpointRetrieve` fails
with any other error, that error is returned after the retrieve call alone. -/
theorem DeviceSyncEndpoint_recreation {σ : Type} (devices : DeviceService σ)
    (sns : EndpointService σ) (currentApp : App) (platformARN : String) (input : Device)
    (s : σ) (hARN : input.EndpointARN ≠ "") :
    (∀ err s1 e s2, sns.EndpointRetrieve input.EndpointARN s = (.error err, s1) →
      IsEndpointNotFound err = true →
      sns.EndpointCreate platformARN input.Token s1 = (.ok e, s2) →
      DeviceSyncEndpoint devices.traced sns.traced currentApp platformARN input (s, []) =
        ((devices.Put currentApp.Namespace { input with EndpointARN := e.ARN } s2).1,
         ((devices.Put currentApp.Namespace { input with EndpointARN := e.ARN } s2).2,
          [Call.EndpointRetrieve input.EndpointARN,
           Call.EndpointCreate platformARN input.Token,
           Call.Put currentApp.Namespace { input with EndpointARN := e.ARN }]))) ∧
    (∀ err s1, sns.EndpointRetrieve input.EndpointARN s = (.error err, s1) →
      IsEndpointNotFound err = false →
      DeviceSyncEndpoint devices.traced sns.traced currentApp platformARN input (s, []) =
        (.error err, (s1, [Call.EndpointRetrieve input.EndpointARN]))) := by
  refine ⟨?_, ?_⟩
  · intro err s1 e s2 hR hNF hC
    simp [DeviceSyncEndpoint, hARN, DeviceService.traced, EndpointService.traced, hR, hNF, hC]
  · intro err s1 hR hNF
    simp [DeviceSyncEndpoint, hARN, EndpointService.traced, hR, hNF]

/-- Scenario D for C2, and an unavailable provider: the endpoint `arn:x` is gone, the
device is persisted once with the new endpoint `arn:y`; a provider failure is surfaced. -/
theorem DeviceSyncEndpoint_recreation_witness :
    DeviceSyncEndpoint (memDevices.onSnd (π := Provider)).traced
        (memSNS (δ := DeviceStore)).traced appA1 "plat" deviceD (([], []), []) =
      (.ok { deviceD with EndpointARN := "arn:y" },
       (([("arn:y", "t1")], [("app_1_1", { deviceD with EndpointARN := "arn:y" })]),
        [Call.EndpointRetrieve "arn:x", Call.EndpointCreate "plat" "t1",
         Call.Put "app_1_1" { deviceD with EndpointARN := "arn:y" }])) ∧
    DeviceSyncEndpoint (memDevices.onSnd (π := Provider)).traced downSNS.traced appA1 "plat"
        deviceD (([], []), []) =
      (.error (.Other "provider unavailable"), (([], []), [Call.EndpointRetrieve "arn:x"])) :=
  ⟨(DeviceSyncEndpoint_recreation (memDevices.onSnd (π := Provider)) memSNS appA1 "plat"
      deviceD ([], []) (by decide)).1 .ErrEndpointNotFound ([], [])
      { ARN := "arn:y", Token := "t1" } ([("arn:y", "t1")], []) rfl rfl rfl,
   (DeviceSyncEndpoint_recreation (memDevices.onSnd (π := Provider)) downSNS appA1 "plat"
      deviceD ([], []) (by decide)).2 (.Other "provider unavailable") ([], []) rfl rfl⟩

/-- C3 (reconcile token rotation): for a device with a non-empty EndpointARN whose
`endpointRetrieve` succeeds with endpoint `e`, neither `Put` nor `endpointCreate` is
called; with equal tokens the only call is the retrieve and the input is returned;
with different tokens `endpointUpdate(EndpointARN, Token)` is called exactly once, and
when it succeeds the input device is returned with every field unchanged. -/
theorem DeviceSyncEndpoint_rotation {σ : Type} (devices : DeviceService σ)
    (sns : EndpointService σ) (currentApp : App) (platformARN : String) (input : Device)
    (s s1 : σ) (e : Endpoint) (hARN : input.EndpointARN ≠ "")
    (hR : sns.EndpointRetrieve input.EndpointARN s = (.ok e, s1)) :
    (input.Token = e.Token →
      DeviceSyncEndpoint devices.traced sns.traced currentApp platformARN input (s, []) =
        (.ok input, (s1, [Call.EndpointRetrieve input.EndpointARN]))) ∧
    (input.Token ≠ e.Token →
      DeviceSyncEndpoint devices.traced sns.traced currentApp platformARN input (s, []) =
        ((match (sns.EndpointUpdate input.EndpointARN input.Token s1).1 with
          | .ok _ => .ok input
          | .error err => .error err),
         ((sns.EndpointUpdate input.EndpointARN input.Token s1).2,
          [Call.EndpointRetrieve input.EndpointARN,
           Call.EndpointUpdate input.EndpointARN input.Token]))) := by
  refine ⟨?_, ?_⟩
  · intro hT
    simp [DeviceSyncEndpoint, hARN, EndpointService.traced, hR, hT]
  · intro hT
    simp only [DeviceSyncEndpoint, hARN, EndpointService.traced, hR, hT, if_false, ne_eq,
      not_false_eq_true, if_true, List.nil_append, List.singleton_append]
    rcases hU : sns.EndpointUpdate input.EndpointARN input.Token s1 with ⟨r, s2⟩
    cases r <;> simp

/-- Scenario E for C3: the remote token `t1` differs from the device token `t2`, one
`endpointUpdate("arn:y", "t2")` is issued and the device is returned unchanged; with
the remote token already `t2` nothing but the retrieve happens. -/
theorem DeviceSyncEndpoint_rotation_witness :
    DeviceSyncEndpoint (memDevices.onSnd (π := Provider)).traced
        (memSNS (δ := DeviceStore)).traced appA1 "plat" deviceE (([("arn:y", "t1")], []), []) =
      (.ok deviceE,
       (([("arn:y", "t2"), ("arn:y", "t1")], []),
        [Call.EndpointRetrieve "arn:y", Call.EndpointUpdate "arn:y" "t2"])) ∧
    DeviceSyncEndpoint (memDevices.onSnd (π := Provider)).traced
        (memSNS (δ := DeviceStore)).traced appA1 "plat" deviceE (([("arn:y", "t2")], []), []) =
      (.ok deviceE, (([("arn:y", "t2")], []), [Call.EndpointRetrieve "arn:y"])) :=
  ⟨(DeviceSyncEndpoint_rotation (memDevices.onSnd (π := Provider)) memSNS appA1 "plat" deviceE
      ([("arn:y", "t1")], []) ([("arn:y", "t1")], []) { ARN := "arn:y", Token := "t1" }
      (by decide) rfl).2 (by decide),
   (DeviceSyncEndpoint_rotation (memDevices.onSnd (π := Provider)) memSNS appA1 "plat" deviceE
      ([("arn:y", "t2")], []) ([("arn:y", "t2")], []) { ARN := "arn:y", Token := "t2" }
      (by decide) rfl).1 rfl⟩

/-- C4 (no-op update): when the lookup of the non-deleted device of (namespace, deviceID,
origin.UserID) returns a first record whose Token equals the supplied token,
`DeviceUpdate` returns success, the only call to the store is that lookup (no `Put`),
and the state is the one the lookup left. -/
theorem DeviceUpdate_noop {σ : Type} (devices : DeviceService σ) (currentApp : App)
    (origin : Origin) (deviceID : String) (platform : Platform) (token language : String)
    (s s1 : σ) (d0 : Device) (ds : List Device)
    (hQ : devices.Query currentApp.Namespace
      { Deleted := some false, DeviceIDs := [deviceID], UserIDs := [origin.UserID] } s =
        (.ok (d0 :: ds), s1))
    (hT : d0.Token = token) :
    DeviceUpdate devices.traced currentApp origin deviceID platform token language (s, []) =
      (.ok (), (s1, [Call.Query currentApp.Namespace
        { Deleted := some false, DeviceIDs := [deviceID], UserIDs := [origin.UserID] }])) ∧
    putCount (DeviceUpdate devices.traced currentApp origin deviceID platform token language
      (s, [])).2.2 = 0 := by
  have h : DeviceUpdate devices.traced currentApp origin deviceID platform token language
      (s, []) = (.ok (), (s1, [Call.Query currentApp.Namespace
        { Deleted := some false, DeviceIDs := [deviceID], UserIDs := [origin.UserID] }])) := by
    simp [DeviceUpdate, DeviceService.traced, defaultDeleted, hQ, hT]
  refine ⟨h, ?_⟩
  rw [h]
  rfl

/-- Scenario F for C4: the stored device has token `t1`; an update with `t1` succeeds,
performs zero `Put` calls and leaves the store as it was. -/
theorem DeviceUpdate_noop_witness :
    DeviceUpdate memDevices.traced appA1 { UserID := 7 } "d-1" .PlatformIOS "t1" "en"
        ([("app_1_1", deviceD)], []) =
      (.ok (), ([("app_1_1", deviceD)], [Call.Query "app_1_1"
        { Deleted := some false, DeviceIDs := ["d-1"], UserIDs := [7] }])) ∧
    putCount (DeviceUpdate memDevices.traced appA1 { UserID := 7 } "d-1" .PlatformIOS "t1" "en"
      ([("app_1_1", deviceD)], [])).2.2 = 0 :=
  DeviceUpdate_noop memDevices appA1 { UserID := 7 } "d-1" .PlatformIOS "t1" "en"
    [("app_1_1", deviceD)] [("app_1_1", deviceD)] deviceD [] rfl rfl

/-- C1 (reconcile symmetry): over the provider modelled as a map from ARN to token and a
device store whose `Put` returns the device it was given, whenever `DeviceSyncEndpoint`
returns a device without error, `endpointRetrieve` on the returned device's EndpointARN
in the resulting provider state succeeds with the returned device's Token. -/
theorem DeviceSyncEndpoint_symmetry {δ : Type} (devices : DeviceService δ)
    (hPut : ∀ ns d t r t1, devices.Put ns d t = (.ok r, t1) → r = d)
    (currentApp : App) (platformARN : String) (input : Device) (s s1 : Provider × δ)
    (out : Device)
    (h : DeviceSyncEndpoint devices.onSnd memSNS currentApp platformARN input s = (.ok out, s1)) :
    (memSNS (δ := δ)).EndpointRetrieve out.EndpointARN s1 =
      (.ok { ARN := out.EndpointARN, Token := out.Token }, s1) := by
  obtain ⟨p, t⟩ := s
  have hcreate : ∀ (q : Provider) (t0 : δ),
      devices.onSnd.Put currentApp.Namespace { input with EndpointARN := freshARN q }
          ((freshARN q, input.Token) :: q, t0) = (.ok out, s1) →
      (memSNS (δ := δ)).EndpointRetrieve out.EndpointARN s1 =
        (.ok { ARN := out.EndpointARN, Token := out.Token }, s1) := by
    intro q t0 hP
    simp only [DeviceService.onSnd] at hP
    rcases hP1 : devices.Put currentApp.Namespace { input with EndpointARN := freshARN q } t0
      with ⟨r, t1⟩
    rw [hP1] at hP
    simp only [Prod.mk.injEq] at hP
    obtain ⟨hr, hs⟩ := hP
    subst hr
    have hd := hPut _ _ _ _ _ hP1
    subst hd hs
    simp [memSNS]
  unfold DeviceSyncEndpoint at h
  split at h
  · exact hcreate p t (by simpa [memSNS] using h)
  · simp only [memSNS] at h
    cases hL : List.lookup input.EndpointARN p with
    | none =>
      simp only [hL] at h
      exact hcreate p t (by simpa [IsEndpointNotFound, unwrapError] using h)
    | some tok =>
      simp only [hL] at h
      by_cases hT : input.Token = tok
      · simp [hT] at h
        obtain ⟨h1, h2⟩ := h
        subst h1 h2
        simp [memSNS, hL, hT]
      · simp [hT] at h
        obtain ⟨h1, h2⟩ := h
        subst h1 h2
        simp [memSNS]

/-- The model store returns the device it was given. -/
theorem memDevices_Put_returns (ns : String) (d : Device) (t : DeviceStore) (r : Device)
    (t1 : DeviceStore) (h : memDevices.Put ns d t = (.ok r, t1)) : r = d := by
  simp only [memDevices, Prod.mk.injEq, Except.ok.injEq] at h
  exact h.1.symm

/-- The three paths of C1 on the model provider and store: no endpoint yet, endpoint gone
(scenario D), endpoint found with another token (scenario E). -/
theorem DeviceSyncEndpoint_symmetry_witness :
    (memSNS (δ := DeviceStore)).EndpointRetrieve "arn:y"
        ([("arn:y", "t1")], [("app_1_1", { deviceD with EndpointARN := "arn:y" })]) =
      (.ok { ARN := "arn:y", Token := "t1" },
        ([("arn:y", "t1")], [("app_1_1", { deviceD with EndpointARN := "arn:y" })])) ∧
    (memSNS (δ := DeviceStore)).EndpointRetrieve "arn:yyyyyy"
        ([("arn:yyyyyy", "t1"), ("arn:z", "t0")],
          [("app_1_1", { deviceD with EndpointARN := "arn:yyyyyy" })]) =
      (.ok { ARN := "arn:yyyyyy", Token := "t1" },
        ([("arn:yyyyyy", "t1"), ("arn:z", "t0")],
          [("app_1_1", { deviceD with EndpointARN := "arn:yyyyyy" })])) ∧
    (memSNS (δ := DeviceStore)).EndpointRetrieve "arn:y"
        ([("arn:y", "t2"), ("arn:y", "t1")], []) =
      (.ok { ARN := "arn:y", Token := "t2" }, ([("arn:y", "t2"), ("arn:y", "t1")], [])) :=
  ⟨DeviceSyncEndpoint_symmetry memDevices memDevices_Put_returns appA1 "plat"
      { deviceD with EndpointARN := "" } ([], []) _ { deviceD with EndpointARN := "arn:y" } rfl,
   DeviceSyncEndpoint_symmetry memDevices memDevices_Put_returns appA1 "plat"
      deviceD ([("arn:z", "t0")], []) _ { deviceD with EndpointARN := "arn:yyyyyy" } rfl,
   DeviceSyncEndpoint_symmetry memDevices memDevices_Put_returns appA1 "plat"
      deviceE ([("arn:y", "t1")], []) _ deviceE rfl⟩

/-! ## Theorems: device registry operations over the model store -/

/-- The lookup filter of `DeviceDelete` and `DeviceUpdate` admits exactly the non-deleted
devices with the given DeviceID and UserID. -/
theorem admits_lookup (deviceID : String) (uid : Nat) (d : Device) :
    ({ Deleted := some false, DeviceIDs := [deviceID], UserIDs := [uid] } :
      QueryOptions).admits d = true ↔
      d.Deleted = false ∧ d.DeviceID = deviceID ∧ d.UserID = uid := by
  simp [QueryOptions.admits, and_assoc]

/-- The filter of `DeviceListUser` admits exactly the devices of the user that are neither
deleted nor disabled. -/
theorem admits_list (uid : Nat) (d : Device) :
    ({ Deleted := some false, Disabled := some false,
       Platforms := [.PlatformIOSSandbox, .PlatformIOS, .PlatformAndroid],
       UserIDs := [uid] } : QueryOptions).admits d = true ↔
      d.Deleted = false ∧ d.Disabled = false ∧ d.UserID = uid := by
  cases hp : d.Platform <;> simp [QueryOptions.admits, hp, and_assoc]

/-- After `Put ns d`, the lookup of the record of `d` returns `d` alone when `d` is not
deleted and nothing when it is. -/
theorem memDevices_lookup_after_Put (ns : String) (d : Device) (st : DeviceStore) :
    (memDevices.Query ns
        { Deleted := some false, DeviceIDs := [d.DeviceID], UserIDs := [d.UserID] }
        (memDevices.Put ns d st).2).1 = .ok (if d.Deleted = false then [d] else []) := by
  have hnil : (List.filter (fun e : String × Device => e.1 == ns &&
      ({ Deleted := some false, DeviceIDs := [d.DeviceID], UserIDs := [d.UserID] } :
        QueryOptions).admits e.2)
      (List.filter (fun e => !sameRecord ns d e) st)) = [] := by
    rw [List.filter_eq_nil_iff]
    intro e he
    rw [List.mem_filter] at he
    have h2 := he.2
    simp only [sameRecord, Bool.not_eq_true', Bool.and_eq_false_imp, Bool.and_eq_true,
      beq_iff_eq] at h2
    intro hc
    simp only [Bool.and_eq_true, beq_iff_eq, admits_lookup] at hc
    have := h2 ⟨hc.1, hc.2.2.1⟩
    simp [hc.2.2.2] at this
  simp only [memDevices, List.filter_append, hnil, List.nil_append]
  by_cases hd : d.Deleted = false
  · have : ({ Deleted := some false, DeviceIDs := [d.DeviceID], UserIDs := [d.UserID] } :
        QueryOptions).admits d = true := (admits_lookup _ _ _).2 ⟨hd, rfl, rfl⟩
    simp [List.filter, this, hd]
  · have : ({ Deleted := some false, DeviceIDs := [d.DeviceID], UserIDs := [d.UserID] } :
        QueryOptions).admits d = false := by
      rw [← Bool.not_eq_true, admits_lookup]
      exact fun h => hd h.1
    simp [List.filter, this, hd]

/-- The lookup of the model store always succeeds and leaves the state as it is. -/
theorem memDevices_Query_eq (ns : String) (opts : QueryOptions) (st : DeviceStore) :
    memDevices.Query ns opts st =
      (.ok ((st.filter (fun e => e.1 == ns && opts.admits e.2)).map (fun e => e.2)), st) := rfl

/-- When the lookup of (namespace, deviceID, user) finds nothing, `DeviceDelete` succeeds
with that lookup as its only call, and the store is left as it is. -/
theorem DeviceDelete_absent (st : DeviceStore) (log : List Call) (currentApp : App)
    (origin : Origin) (deviceID : String)
    (h : (memDevices.Query currentApp.Namespace
      { Deleted := some false, DeviceIDs := [deviceID], UserIDs := [origin.UserID] } st).1 =
        .ok []) :
    DeviceDelete memDevices.traced currentApp origin deviceID (st, log) =
      (.ok (), (st, log ++ [Call.Query currentApp.Namespace
        { Deleted := some false, DeviceIDs := [deviceID], UserIDs := [origin.UserID] }])) := by
  rw [memDevices_Query_eq] at h
  simp only [Except.ok.injEq] at h
  simp only [DeviceDelete, DeviceService.traced, defaultDeleted, memDevices_Query_eq, h]

/-- When the lookup of (namespace, deviceID, user) finds nothing, the list of the user
holds no device with that deviceID. -/
theorem DeviceListUser_absent (st : DeviceStore) (currentApp : App) (uid : Nat)
    (deviceID : String)
    (h : (memDevices.Query currentApp.Namespace
      { Deleted := some false, DeviceIDs := [deviceID], UserIDs := [uid] } st).1 = .ok []) :
    ∃ ds, (DeviceListUser memDevices currentApp uid st).1 = .ok ds ∧
      ∀ d ∈ ds, d.DeviceID ≠ deviceID := by
  rw [memDevices_Query_eq] at h
  simp only [Except.ok.injEq, List.map_eq_nil_iff, List.filter_eq_nil_iff] at h
  refine ⟨(st.filter (fun e : String × Device => e.1 == currentApp.Namespace &&
    ({ Deleted := some false, Disabled := some false,
       Platforms := [.PlatformIOSSandbox, .PlatformIOS, .PlatformAndroid],
       UserIDs := [uid] } : QueryOptions).admits e.2)).map (fun e : String × Device => e.2),
    rfl, ?_⟩
  intro d hd hID
  simp only [List.mem_map, List.mem_filter, Bool.and_eq_true, beq_iff_eq, admits_list] at hd
  obtain ⟨e, ⟨he, hns, hdel, _, huid⟩, rfl⟩ := hd
  apply h e he
  simp only [Bool.and_eq_true, beq_iff_eq, admits_lookup]
  exact ⟨hns, hdel, hID, huid⟩

/-- C7 (idempotent soft-delete): over the model device store, for every store state, app,
origin and deviceID, two `DeviceDelete` calls in a row both succeed, the second performs
no `Put`, after the first call `DeviceListUser` for origin.UserID returns no device with
that deviceID, and when no matching non-deleted device is stored the first call succeeds
with the lookup as its only call (no `Put`, store unchanged). -/
theorem DeviceDelete_idempotent (st : DeviceStore) (currentApp : App) (origin : Origin)
    (deviceID : String) :
    (DeviceDelete memDevices.traced currentApp origin deviceID (st, [])).1 = .ok () ∧
    (DeviceDelete memDevices.traced currentApp origin deviceID
      ((DeviceDelete memDevices.traced currentApp origin deviceID (st, [])).2.1, [])).1 =
        .ok () ∧
    putCount (DeviceDelete memDevices.traced currentApp origin deviceID
      ((DeviceDelete memDevices.traced currentApp origin deviceID (st, [])).2.1, [])).2.2 =
        0 ∧
    (∃ ds, (DeviceListUser memDevices currentApp origin.UserID
        (DeviceDelete memDevices.traced currentApp origin deviceID (st, [])).2.1).1 = .ok ds ∧
      ∀ d ∈ ds, d.DeviceID ≠ deviceID) ∧
    ((∀ e ∈ st, ¬ (e.1 = currentApp.Namespace ∧ e.2.Deleted = false ∧
        e.2.DeviceID = deviceID ∧ e.2.UserID = origin.UserID)) →
      DeviceDelete memDevices.traced currentApp origin deviceID (st, []) =
        (.ok (), (st, [Call.Query currentApp.Namespace
          { Deleted := some false, DeviceIDs := [deviceID], UserIDs := [origin.UserID] }]))) := by
  have key : (DeviceDelete memDevices.traced currentApp origin deviceID (st, [])).1 = .ok () ∧
      (memDevices.Query currentApp.Namespace
        { Deleted := some false, DeviceIDs := [deviceID], UserIDs := [origin.UserID] }
        (DeviceDelete memDevices.traced currentApp origin deviceID (st, [])).2.1).1 =
          .ok [] := by
    cases hq : (st.filter (fun e => e.1 == currentApp.Namespace &&
        ({ Deleted := some false, DeviceIDs := [deviceID], UserIDs := [origin.UserID] } :
          QueryOptions).admits e.2)).map (fun e => e.2) with
    | nil =>
      have h0 : (memDevices.Query currentApp.Namespace
          { Deleted := some false, DeviceIDs := [deviceID], UserIDs := [origin.UserID] } st).1 =
            .ok [] := by rw [memDevices_Query_eq, hq]
      rw [DeviceDelete_absent st [] currentApp origin deviceID h0]
      exact ⟨rfl, h0⟩
    | cons d0 rest =>
      have hmem : d0 ∈ (st.filter (fun e => e.1 == currentApp.Namespace &&
          ({ Deleted := some false, DeviceIDs := [deviceID], UserIDs := [origin.UserID] } :
            QueryOptions).admits e.2)).map (fun e => e.2) := by
        rw [hq]; exact List.mem_cons_self _ _
      simp only [List.mem_map, List.mem_filter, Bool.and_eq_true, beq_iff_eq,
        admits_lookup] at hmem
      obtain ⟨e, ⟨_, _, _, hID, hU⟩, rfl⟩ := hmem
      have hrun : DeviceDelete memDevices.traced currentApp origin deviceID (st, []) =
          (.ok (), ((memDevices.Put currentApp.Namespace { e.2 with Deleted := true } st).2,
            [Call.Query currentApp.Namespace
              { Deleted := some false, DeviceIDs := [deviceID], UserIDs := [origin.UserID] },
             Call.Put currentApp.Namespace { e.2 with Deleted := true }])) := by
        simp only [DeviceDelete, DeviceService.traced, defaultDeleted, memDevices_Query_eq, hq]
        rfl
      rw [hrun]
      refine ⟨rfl, ?_⟩
      have := memDevices_lookup_after_Put currentApp.Namespace { e.2 with Deleted := true } st
      rw [← hID, ← hU]
      simpa using this
  obtain ⟨h1, h2⟩ := key
  have hsecond := DeviceDelete_absent
    (DeviceDelete memDevices.traced currentApp origin deviceID (st, [])).2.1 [] currentApp
    origin deviceID h2
  refine ⟨h1, ?_, ?_, DeviceListUser_absent _ currentApp origin.UserID deviceID h2, ?_⟩
  · rw [hsecond]
  · rw [hsecond]; rfl
  · intro habs
    apply DeviceDelete_absent
    rw [memDevices_Query_eq]
    simp only [Except.ok.injEq, List.map_eq_nil_iff, List.filter_eq_nil_iff]
    intro e he hc
    simp only [Bool.and_eq_true, beq_iff_eq, admits_lookup] at hc
    exact habs e he hc

/-- Two deletes of the stored device `d-1` for C7, and a delete of the absent device `d-2`:
the first delete marks the record, the list of user 7 is then empty, and the delete of a
device that is not stored performs the lookup alone. -/
theorem DeviceDelete_idempotent_witness :
    (DeviceDelete memDevices.traced appA1 { UserID := 7 } "d-1"
      ([("app_1_1", deviceD)], [])).1 = .ok () ∧
    putCount (DeviceDelete memDevices.traced appA1 { UserID := 7 } "d-1"
      ((DeviceDelete memDevices.traced appA1 { UserID := 7 } "d-1"
        ([("app_1_1", deviceD)], [])).2.1, [])).2.2 = 0 ∧
    DeviceDelete memDevices.traced appA1 { UserID := 7 } "d-2" ([("app_1_1", deviceD)], []) =
      (.ok (), ([("app_1_1", deviceD)], [Call.Query "app_1_1"
        { Deleted := some false, DeviceIDs := ["d-2"], UserIDs := [7] }])) :=
  ⟨(DeviceDelete_idempotent [("app_1_1", deviceD)] appA1 { UserID := 7 } "d-1").1,
   (DeviceDelete_idempotent [("app_1_1", deviceD)] appA1 { UserID := 7 } "d-1").2.2.1,
   (DeviceDelete_idempotent [("app_1_1", deviceD)] appA1 { UserID := 7 } "d-2").2.2.2.2
     (by decide)⟩

/-- C8 as stated fails: the stored device is disabled and has token `t1`; the update with
the same token `t1` succeeds, the stored record is still disabled, and the list of the
user does not return it. -/
theorem DeviceUpdate_same_token_stays_disabled :
    DeviceUpdate memDevices appA1 { UserID := 7 } "d-1" .PlatformIOS "t1" "en"
        [("app_1_1", deviceDisabled)] = (.ok (), [("app_1_1", deviceDisabled)]) ∧
    deviceDisabled.Disabled = true ∧
    (DeviceListUser memDevices appA1 7
      (DeviceUpdate memDevices appA1 { UserID := 7 } "d-1" .PlatformIOS "t1" "en"
        [("app_1_1", deviceDisabled)]).2).1 = .ok [] :=
  ⟨rfl, rfl, rfl⟩

/-- C8 amended (reanimation on update): over the model device store, whose writes may be
rejected, when the lookup of (namespace, deviceID, user) returns a first record `d0` that
is disabled and whose Token differs from the supplied token, a successful `DeviceUpdate`
leaves as the record stored for (namespace, deviceID, user) `d0` with `Disabled = false`
and the supplied Token, and `DeviceListUser` returns it. -/
theorem DeviceUpdate_reanimates (reject : String → Device → DeviceStore → Option Error)
    (st : DeviceStore) (currentApp : App) (origin : Origin)
    (deviceID : String) (platform : Platform) (token language : String)
    (d0 : Device) (ds : List Device)
    (hQ : ((checkedDevices reject).Query currentApp.Namespace
      { Deleted := some false, DeviceIDs := [deviceID], UserIDs := [origin.UserID] } st).1 =
        .ok (d0 :: ds))
    (_hD : d0.Disabled = true) (hT : d0.Token ≠ token)
    (hOK : (DeviceUpdate (checkedDevices reject) currentApp origin deviceID platform token
      language st).1 = .ok ()) :
    ((checkedDevices reject).Query currentApp.Namespace
      { Deleted := some false, DeviceIDs := [deviceID], UserIDs := [origin.UserID] }
      (DeviceUpdate (checkedDevices reject) currentApp origin deviceID platform token
        language st).2).1 =
        .ok [{ d0 with Disabled := false, Token := token }] ∧
    (∃ l, (DeviceListUser (checkedDevices reject) currentApp origin.UserID
        (DeviceUpdate (checkedDevices reject) currentApp origin deviceID platform token
          language st).2).1 = .ok l ∧
      { d0 with Disabled := false, Token := token } ∈ l) := by
  have hQ1 : (memDevices.Query currentApp.Namespace
      { Deleted := some false, DeviceIDs := [deviceID], UserIDs := [origin.UserID] } st).1 =
        .ok (d0 :: ds) := hQ
  rw [memDevices_Query_eq] at hQ1
  simp only [Except.ok.injEq] at hQ1
  have hmem : d0 ∈ (st.filter (fun e => e.1 == currentApp.Namespace &&
      ({ Deleted := some false, DeviceIDs := [deviceID], UserIDs := [origin.UserID] } :
        QueryOptions).admits e.2)).map (fun e => e.2) := by
    rw [hQ1]; exact List.mem_cons_self _ _
  simp only [List.mem_map, List.mem_filter, Bool.and_eq_true, beq_iff_eq,
    admits_lookup] at hmem
  obtain ⟨e, ⟨_, _, hDel, hID, hU⟩, rfl⟩ := hmem
  have hstep : DeviceUpdate (checkedDevices reject) currentApp origin deviceID platform token
      language st =
      match reject currentApp.Namespace { e.2 with Disabled := false, Token := token } st with
      | some err =>
        if IsInvalidDevice err then (.error (wrapError .ErrInvalidEntity err.Error), st)
        else (.error err, st)
      | none => (.ok (), (memDevices.Put currentApp.Namespace
          { e.2 with Disabled := false, Token := token } st).2) := by
    simp only [DeviceUpdate, checkedDevices, defaultDeleted, memDevices_Query_eq, hQ1]
    cases hr : reject currentApp.Namespace { e.2 with Disabled := false, Token := token } st
      with
    | some err => simp [hT, hr]
    | none => simp [hT, hr, memDevices]
  have hrun : DeviceUpdate (checkedDevices reject) currentApp origin deviceID platform token
      language st = (.ok (), (memDevices.Put currentApp.Namespace
        { e.2 with Disabled := false, Token := token } st).2) := by
    rw [hstep] at hOK ⊢
    cases hr : reject currentApp.Namespace { e.2 with Disabled := false, Token := token } st
      with
    | some err =>
      rw [hr] at hOK
      by_cases hi : IsInvalidDevice err = true <;> simp [hi] at hOK
    | none => rfl
  rw [hrun]
  have hlook := memDevices_lookup_after_Put currentApp.Namespace
    { e.2 with Disabled := false, Token := token } st
  refine ⟨?_, ?_⟩
  · show (memDevices.Query currentApp.Namespace
      { Deleted := some false, DeviceIDs := [deviceID], UserIDs := [origin.UserID] } _).1 = _
    rw [← hID, ← hU]
    simpa [hDel] using hlook
  · refine ⟨((memDevices.Put currentApp.Namespace
        { e.2 with Disabled := false, Token := token } st).2.filter
          (fun x : String × Device => x.1 == currentApp.Namespace &&
            ({ Deleted := some false, Disabled := some false,
               Platforms := [.PlatformIOSSandbox, .PlatformIOS, .PlatformAndroid],
               UserIDs := [origin.UserID] } : QueryOptions).admits x.2)).map
          (fun x : String × Device => x.2), rfl, ?_⟩
    simp only [List.mem_map, List.mem_filter, Bool.and_eq_true, beq_iff_eq, admits_list]
    refine ⟨(currentApp.Namespace, { e.2 with Disabled := false, Token := token }),
      ⟨?_, rfl, hDel, rfl, hU⟩, rfl⟩
    simp [memDevices]

/-- The disabled device with token `t1` is updated with the new token `t2` for C8, over a
store that rejects devices without token: the update succeeds, the device is stored
enabled with token `t2` and listed again. -/
theorem DeviceUpdate_reanimates_witness :
    ((checkedDevices rejectEmptyToken).Query "app_1_1"
      { Deleted := some false, DeviceIDs := ["d-1"], UserIDs := [7] }
      (DeviceUpdate (checkedDevices rejectEmptyToken) appA1 { UserID := 7 } "d-1"
        .PlatformIOS "t2" "en" [("app_1_1", deviceDisabled)]).2).1 =
      .ok [{ deviceDisabled with Disabled := false, Token := "t2" }] ∧
    (∃ l, (DeviceListUser (checkedDevices rejectEmptyToken) appA1 7
        (DeviceUpdate (checkedDevices rejectEmptyToken) appA1 { UserID := 7 } "d-1"
          .PlatformIOS "t2" "en" [("app_1_1", deviceDisabled)]).2).1 = .ok l ∧
      { deviceDisabled with Disabled := false, Token := "t2" } ∈ l) :=
  DeviceUpdate_reanimates rejectEmptyToken [("app_1_1", deviceDisabled)] appA1
    { UserID := 7 } "d-1" .PlatformIOS "t2" "en" deviceDisabled [] rfl rfl (by decide) rfl

/-- An update the store rejects is not successful and reanimates nothing: the update of
the disabled device with an empty token returns the invalid-entity error and the stored
record is the disabled one, unchanged. -/
theorem DeviceUpdate_rejected_stays_disabled :
    DeviceUpdate (checkedDevices rejectEmptyToken) appA1 { UserID := 7 } "d-1" .PlatformIOS
        "" "en" [("app_1_1", deviceDisabled)] =
      (.error (.Wrapped .ErrInvalidEntity
        "invalid entity: invalid device: Token must be set"),
       [("app_1_1", deviceDisabled)]) :=
  rfl

/-! ## Theorems: recipient resolvers -/

/-- The loop of `filterIDs` over `ids` appends the ids that are not in `seen`. -/
theorem filterIDs_loop (seen : List Nat) (ids acc : List Nat) :
    ids.foldl (fun is id => if seen.contains id then is else is ++ [id]) acc =
      acc ++ ids.filter (fun id => !seen.contains id) := by
  induction ids generalizing acc with
  | nil => simp
  | cons id ids ih =>
    rw [List.foldl_cons, ih]
    by_cases h : id ∈ seen
    · simp [h, List.filter_cons]
    · simp [h, List.filter_cons]

/-- The function `filterIDs` is the filter that drops the elements of `fs`. -/
theorem filterIDs_eq_filter (ids fs : List Nat) :
    filterIDs ids fs = ids.filter (fun id => !fs.contains id) := by
  unfold filterIDs
  simp only [filterIDs_loop, List.nil_append]
  apply List.filter_congr
  intro id _
  simp

/-- C10 as stated fails: `filterIDs` keeps an id that occurs twice, and with the tags
`ownerFriends` (friends 3, 4, 5 of owner 3) and `owner` (parent owner 4) the resolver
asks the user store for the ids 4, 5, 4. -/
theorem filterIDs_keeps_duplicates :
    filterIDs [4, 4] [3] = [4, 4] ∧ ¬ (filterIDs [4, 4] [3]).Nodup ∧
    (objectRecipients tableHost (literalTemplate contextObject) tableConnections tableObjects
      tableUsers appA1 contextC [("ownerFriends", ""), ("owner", "")] world0).2.Lookups =
        [[4, 5, 4]] := by
  refine ⟨by decide, by decide, by decide⟩

/-- C10 amended: `filterIDs(ids, fs...)` is the sub-list of the elements of `ids` that are
not in `fs`, in order and with their multiplicity: it contains no element of `fs`, every
element of `ids` that is not in `fs`, and has no duplicates when `ids` has none; and the
id list `objectRecipients` passes to the user store is the accumulated list without the
ids equal to `Owner.ID`. -/
theorem filterIDs_spec (ids fs : List Nat) :
    filterIDs ids fs = ids.filter (fun id => !fs.contains id) ∧
    (∀ id ∈ filterIDs ids fs, id ∉ fs) ∧
    (∀ id ∈ ids, id ∉ fs → id ∈ filterIDs ids fs) ∧
    (∀ id, id ∉ fs → (filterIDs ids fs).count id = ids.count id) ∧
    (ids.Nodup → (filterIDs ids fs).Nodup) ∧
    (∀ {τ σ : Type} (host : Host σ) (tpl : Template τ contextObject)
      (connections : ConnectionService σ) (objects : ObjectService σ) (users : UserService σ)
      (currentApp : App) (context : contextObject) (q : Query) (s s1 : σ),
      objectRecipientsLoop host tpl connections objects currentApp context q [] s =
        (.ok ids, s1) →
      objectRecipients host tpl connections objects users currentApp context q s =
        match users.ListFromIDs currentApp.Namespace
          (ids.filter (fun id => id ≠ context.Owner.ID)) s1 with
        | (.error err, s2) => (.err err, s2)
        | (.ok us, s2) => (.ok (us.map some), s2)) := by
  refine ⟨filterIDs_eq_filter ids fs, ?_, ?_, ?_, ?_, ?_⟩
  · intro id hid
    rw [filterIDs_eq_filter, List.mem_filter] at hid
    simpa using hid.2
  · intro id hid hfs
    rw [filterIDs_eq_filter, List.mem_filter]
    exact ⟨hid, by simpa using hfs⟩
  · intro id hfs
    rw [filterIDs_eq_filter, List.count_filter]
    simpa using hfs
  · intro hnd
    rw [filterIDs_eq_filter]
    exact hnd.filter _
  · intro τ σ host tpl connections objects users currentApp context q s s1 hloop
    simp only [objectRecipients, hloop, filterIDs_eq_filter]
    have : ids.filter (fun id => !([context.Owner.ID] : List Nat).contains id) =
        ids.filter (fun id => id ≠ context.Owner.ID) := by
      apply List.filter_congr
      intro id _
      simp
    rw [this]

/-! ## Theorems: dispatchers -/

/-- Resolver call sequences compose. -/
theorem Resolved.append {σ : Type} {resolve : Query → σ → Result (List (Option User)) × σ}
    {rcs1 rcs2 : List Recipient} {r1 r2 : List (Recipient × List User)} {s s1 s2 : σ}
    (h1 : Resolved resolve rcs1 s r1 s1) (h2 : Resolved resolve rcs2 s1 r2 s2) :
    Resolved resolve (rcs1 ++ rcs2) s (r1 ++ r2) s2 := by
  induction h1 with
  | nil s => simpa using h2
  | cons hres _ ih => exact Resolved.cons hres (ih h2)

/-- Every pair of a resolver call sequence is the result of a resolver call. -/
theorem Resolved.mem {σ : Type} {resolve : Query → σ → Result (List (Option User)) × σ}
    {rcs : List Recipient} {r : List (Recipient × List User)} {s s1 : σ}
    (h : Resolved resolve rcs s r s1) :
    ∀ p ∈ r, ∃ sa sb, resolve p.1.Query sa = (.ok (p.2.map some), sb) := by
  induction h with
  | nil s => intro p hp; cases hp
  | cons hres _ ih =>
    intro p hp
    rcases List.mem_cons.1 hp with rfl | hp
    · exact ⟨_, _, hres⟩
    · exact ih p hp

/-- The innermost loop succeeds exactly when every resolved pointer is a user and the
templates render; it appends one message per user, in order. -/
theorem pipelineUsers_ok (compile : String → Except Error String) (recipient : Recipient)
    (rs : List (Option User)) (ms ms1 : List Message) :
    pipelineUsers compile recipient rs ms = .ok ms1 ↔
      ∃ (us : List User) (news : List Message), rs = us.map some ∧ ms1 = ms ++ news ∧
        List.Forall₂ (Emitted compile) news (us.map (fun u => (recipient, u))) := by
  induction rs generalizing ms with
  | nil =>
    constructor
    · intro h
      simp only [pipelineUsers, Result.ok.injEq] at h
      exact ⟨[], [], rfl, by simp [h], List.Forall₂.nil⟩
    · rintro ⟨us, news, hus, hms, hf⟩
      have : us = [] := by simpa using hus.symm
      subst this
      simp only [List.map_nil, List.forall₂_nil_right_iff] at hf
      subst hf
      simp [pipelineUsers, hms]
  | cons r rs ih =>
    constructor
    · intro h
      cases hurn : compile recipient.URN with
      | error e => simp [pipelineUsers, hurn] at h
      | ok urn =>
        cases hmsg : compile (mapIndex recipient.Templates languageEnglish) with
        | error e => simp [pipelineUsers, hurn, hmsg] at h
        | ok msg =>
          cases r with
          | none => simp [pipelineUsers, hurn, hmsg] at h
          | some u =>
            simp only [pipelineUsers, hurn, hmsg] at h
            obtain ⟨us, news, hus, hms, hf⟩ := (ih _).1 h
            refine ⟨u :: us, { Message := msg, Recipient := u.ID, URN := urn } :: news,
              by simp [hus], by simp [hms], ?_⟩
            exact List.Forall₂.cons ⟨rfl, hurn, hmsg⟩ hf
    · rintro ⟨us, news, hus, hms, hf⟩
      cases us with
      | nil => simp at hus
      | cons u us =>
        simp only [List.map_cons, List.cons.injEq] at hus
        obtain ⟨hr, hrs⟩ := hus
        cases news with
        | nil => simp at hf
        | cons m news =>
          simp only [List.map_cons, List.forall₂_cons] at hf
          obtain ⟨⟨hm1, hm2, hm3⟩, hf⟩ := hf
          simp only at hm1 hm2 hm3
          unfold pipelineUsers
          simp only [hm2, hm3, hr]
          apply (ih _).2
          refine ⟨us, news, hrs, ?_, hf⟩
          rw [hms, ← hm1]
          simp

/-- A list related to an append splits into two related parts. -/
theorem forall₂_split_append {α β : Type} {R : α → β → Prop} (l : List α) (l1 l2 : List β)
    (h : List.Forall₂ R l (l1 ++ l2)) :
    ∃ a b, l = a ++ b ∧ List.Forall₂ R a l1 ∧ List.Forall₂ R b l2 :=
  ⟨l.take l1.length, l.drop l1.length, (List.take_append_drop _ _).symm,
    List.forall₂_take_append l l1 l2 h, List.forall₂_drop_append l l1 l2 h⟩

/-- A resolver call sequence over an append splits at the intermediate state. -/
theorem Resolved.split {σ : Type} {resolve : Query → σ → Result (List (Option User)) × σ}
    (rcs1 rcs2 : List Recipient) (r : List (Recipient × List User)) (s s2 : σ)
    (h : Resolved resolve (rcs1 ++ rcs2) s r s2) :
    ∃ r1 r2 s1, r = r1 ++ r2 ∧ Resolved resolve rcs1 s r1 s1 ∧
      Resolved resolve rcs2 s1 r2 s2 := by
  induction rcs1 generalizing r s with
  | nil => exact ⟨[], r, s, rfl, Resolved.nil s, by simpa using h⟩
  | cons rc rcs1 ih =>
    rw [List.cons_append] at h
    cases h with
    | cons hres hrest =>
      obtain ⟨r1, r2, s1, hr, h1, h2⟩ := ih _ _ hrest
      exact ⟨_ :: r1, r2, s1, by simp [hr], Resolved.cons hres h1, h2⟩

/-- The expansion of resolved users distributes over append. -/
theorem expand_append (r1 r2 : List (Recipient × List User)) :
    expand (r1 ++ r2) = expand r1 ++ expand r2 := by
  simp [expand]

/-- The loop over the recipients of a rule succeeds exactly along a resolver call sequence
whose users all get their message; the messages are appended in order. -/
theorem pipelineRecipients_ok {σ : Type}
    (resolve : Query → σ → Result (List (Option User)) × σ)
    (compile : String → Except Error String) (rcs : List Recipient) (ms ms1 : List Message)
    (s s1 : σ) :
    pipelineRecipients resolve compile rcs ms s = (.ok ms1, s1) ↔
      ∃ (resolved : List (Recipient × List User)) (news : List Message),
        Resolved resolve rcs s resolved s1 ∧ ms1 = ms ++ news ∧
        List.Forall₂ (Emitted compile) news (expand resolved) := by
  induction rcs generalizing ms s with
  | nil =>
    constructor
    · intro h
      simp only [pipelineRecipients, Prod.mk.injEq, Result.ok.injEq] at h
      obtain ⟨h1, h2⟩ := h
      subst h1 h2
      exact ⟨[], [], Resolved.nil s, by simp, by simp [expand]⟩
    · rintro ⟨resolved, news, hres, hms, hf⟩
      cases hres
      simp only [expand, List.flatMap_nil, List.forall₂_nil_right_iff] at hf
      subst hf
      simp [pipelineRecipients, hms]
  | cons rc rcs ih =>
    constructor
    · intro h
      rcases hres : resolve rc.Query s with ⟨r, sa⟩
      cases r with
      | err e => simp [pipelineRecipients, hres] at h
      | nilDeref => simp [pipelineRecipients, hres] at h
      | ok rs =>
        cases hu : pipelineUsers compile rc rs ms with
        | err e => simp [pipelineRecipients, hres, hu] at h
        | nilDeref => simp [pipelineRecipients, hres, hu] at h
        | ok ms2 =>
          simp only [pipelineRecipients, hres, hu] at h
          obtain ⟨us, news1, hrs, hms2, hf1⟩ := (pipelineUsers_ok _ _ _ _ _).1 hu
          obtain ⟨resolved, news2, hrest, hms1, hf2⟩ := (ih _ _).1 h
          subst hrs
          refine ⟨(rc, us) :: resolved, news1 ++ news2, Resolved.cons hres hrest,
            by simp [hms1, hms2], ?_⟩
          simp only [expand, List.flatMap_cons]
          exact List.rel_append hf1 hf2
    · rintro ⟨resolved, news, hres, hms, hf⟩
      cases hres with
      | cons hq hrest =>
        rename_i us rest sa
        simp only [expand, List.flatMap_cons] at hf
        obtain ⟨news1, news2, hnews, hf1, hf2⟩ := forall₂_split_append _ _ _ hf
        have hu : pipelineUsers compile rc (us.map some) ms = .ok (ms ++ news1) :=
          (pipelineUsers_ok _ _ _ _ _).2 ⟨us, news1, rfl, rfl, hf1⟩
        simp only [pipelineRecipients, hq, hu]
        apply (ih _ _).2
        exact ⟨rest, news2, hrest, by simp [hms, hnews], hf2⟩

/-- The loop over the rules succeeds exactly along the resolver call sequence of the
recipient specifications of the matching rules, every resolved user getting one message;
the messages are appended in order. -/
theorem pipelineRules_ok {α σ : Type}
    (resolve : Query → σ → Result (List (Option User)) × σ)
    (compile : String → Except Error String) (change : StateChange α)
    (rules : List (Rule α)) (ms ms1 : List Message) (s s1 : σ) :
    pipelineRules resolve compile change rules ms s = (.ok ms1, s1) ↔
      ∃ (resolved : List (Recipient × List User)) (news : List Message),
        Resolved resolve (matchingRecipients change rules) s resolved s1 ∧ ms1 = ms ++ news ∧
        List.Forall₂ (Emitted compile) news (expand resolved) := by
  induction rules generalizing ms s with
  | nil =>
    constructor
    · intro h
      simp only [pipelineRules, Prod.mk.injEq, Result.ok.injEq] at h
      obtain ⟨h1, h2⟩ := h
      subst h1 h2
      exact ⟨[], [], Resolved.nil s, by simp, by simp [expand]⟩
    · rintro ⟨resolved, news, hres, hms, hf⟩
      cases hres
      simp only [expand, List.flatMap_nil, List.forall₂_nil_right_iff] at hf
      subst hf
      simp [pipelineRules, hms]
  | cons r rules ih =>
    by_cases hm : r.Match change = true
    · have hmr : matchingRecipients change (r :: rules) =
          r.Recipients ++ matchingRecipients change rules := by
        simp [matchingRecipients, List.filter_cons, hm]
      rw [hmr]
      constructor
      · intro h
        rcases hrec : pipelineRecipients resolve compile r.Recipients ms s with ⟨res, sa⟩
        cases res with
        | err e => simp [pipelineRules, hm, hrec] at h
        | nilDeref => simp [pipelineRules, hm, hrec] at h
        | ok ms2 =>
          simp only [pipelineRules, hm, hrec, Bool.not_true, Bool.false_eq_true,
            if_false] at h
          obtain ⟨r1, news1, hres1, hms2, hf1⟩ := (pipelineRecipients_ok _ _ _ _ _ _ _).1 hrec
          obtain ⟨r2, news2, hres2, hms1, hf2⟩ := (ih _ _).1 h
          refine ⟨r1 ++ r2, news1 ++ news2, hres1.append hres2, by simp [hms1, hms2], ?_⟩
          rw [expand_append]
          exact List.rel_append hf1 hf2
      · rintro ⟨resolved, news, hres, hms, hf⟩
        obtain ⟨r1, r2, sa, hr, hres1, hres2⟩ := Resolved.split _ _ _ _ _ hres
        subst hr
        rw [expand_append] at hf
        obtain ⟨news1, news2, hnews, hf1, hf2⟩ := forall₂_split_append _ _ _ hf
        have hrec : pipelineRecipients resolve compile r.Recipients ms s =
            (.ok (ms ++ news1), sa) :=
          (pipelineRecipients_ok _ _ _ _ _ _ _).2 ⟨r1, news1, hres1, rfl, hf1⟩
        simp only [pipelineRules, hm, hrec, Bool.not_true, Bool.false_eq_true, if_false]
        apply (ih _ _).2
        exact ⟨r2, news2, hres2, by simp [hms, hnews], hf2⟩
    · have hmr : matchingRecipients change (r :: rules) = matchingRecipients change rules := by
        simp [matchingRecipients, List.filter_cons, hm]
      rw [hmr]
      have hstep : pipelineRules resolve compile change (r :: rules) ms s =
          pipelineRules resolve compile change rules ms s := by
        simp [pipelineRules, hm]
      rw [hstep]
      exact ih _ _

/-- From an empty accumulator, the loop over the rules succeeds exactly when the ordering
contract holds. -/
theorem pipelineRules_dispatched {α σ : Type}
    (resolve : Query → σ → Result (List (Option User)) × σ)
    (compile : String → Except Error String) (change : StateChange α)
    (rules : List (Rule α)) (ms : List Message) (s s1 : σ) :
    pipelineRules resolve compile change rules [] s = (.ok ms, s1) ↔
      Dispatched resolve compile change rules s ms s1 := by
  rw [pipelineRules_ok]
  unfold Dispatched
  constructor
  · rintro ⟨resolved, news, hres, hms, hf⟩
    simp only [List.nil_append] at hms
    subst hms
    exact ⟨resolved, hres, hf⟩
  · rintro ⟨resolved, hres, hf⟩
    exact ⟨resolved, ms, hres, by simp, hf⟩

/-- C6 (message ordering): each dispatcher succeeds with messages `ms` exactly when the
context is built and `ms` is the concatenation, over the recipient specifications of the
matching rules (rule order, then list order) and over the users the resolver returned for
each specification (returned order), of one message per user with the user's ID, the
rendered URN template and the rendered English body template; rules that do not match
contribute nothing, and a nil `New` of a connection or object change gives no message. -/
theorem Pipeline_message_ordering {τ σ : Type} (host : Host σ)
    (tplC : Template τ contextConnection) (tplE : Template τ contextEvent)
    (tplO : Template τ contextObject) (connections : ConnectionService σ)
    (objects : ObjectService σ) (users : UserService σ) (currentApp : App)
    (ms : List Message) (s s1 : σ) :
    (∀ (change : StateChange Connection) (rules : List (Rule Connection)),
      PipelineConnection tplC users currentApp change rules s = (.ok ms, s1) ↔
        (change.New = none ∧ ms = [] ∧ s1 = s) ∨
        ∃ c userFrom userTo sa sb, change.New = some c ∧
          users.UserFetch currentApp c.FromID s = (.ok userFrom, sa) ∧
          users.UserFetch currentApp c.ToID sa = (.ok userTo, sb) ∧
          Dispatched
            (fun q s => (recipientsConnection currentApp
              { Conenction := c, From := userFrom, To := userTo } q, s))
            (compileTemplate tplC { Conenction := c, From := userFrom, To := userTo })
            change rules sb ms s1) ∧
    (∀ (change : StateChange Event) (rules : List (Rule Event)),
      PipelineEvent tplE objects users currentApp change rules s = (.ok ms, s1) ↔
        ∃ e context sa, change.New = some e ∧
          eventContext objects users currentApp e s = (.ok context, sa) ∧
          Dispatched (fun q s => (recipientsEvent currentApp context q, s))
            (compileTemplate tplE context) change rules sa ms s1) ∧
    (∀ (change : StateChange Object) (rules : List (Rule Object)),
      PipelineObject host tplO connections objects users currentApp change rules s =
          (.ok ms, s1) ↔
        (change.New = none ∧ ms = [] ∧ s1 = s) ∨
        ∃ o context sa, change.New = some o ∧
          objectContext objects users currentApp o s = (.ok context, sa) ∧
          Dispatched (objectRecipients host tplO connections objects users currentApp context)
            (compileTemplate tplO context) change rules sa ms s1) := by
  refine ⟨?_, ?_, ?_⟩
  · intro change rules
    cases hnew : change.New with
    | none =>
      simp only [PipelineConnection, hnew, Prod.mk.injEq, Result.ok.injEq]
      constructor
      · rintro ⟨h1, h2⟩
        exact Or.inl ⟨trivial, h1.symm, h2.symm⟩
      · rintro (⟨_, h1, h2⟩ | ⟨c, _, _, _, _, hc, _⟩)
        · exact ⟨h1.symm, h2.symm⟩
        · cases hc
    | some c =>
      rcases hf : users.UserFetch currentApp c.FromID s with ⟨rf, sa⟩
      cases rf with
      | error err =>
        simp only [PipelineConnection, hnew, hf]
        constructor
        · intro h; simp at h
        · rintro (⟨h, _⟩ | ⟨c1, uf, ut, sa1, sb1, hc, hf1, _⟩)
          · cases h
          · cases hc; rw [hf] at hf1; simp at hf1
      | ok userFrom =>
        rcases ht : users.UserFetch currentApp c.ToID sa with ⟨rt, sb⟩
        cases rt with
        | error err =>
          simp only [PipelineConnection, hnew, hf, ht]
          constructor
          · intro h; simp at h
          · rintro (⟨h, _⟩ | ⟨c1, uf, ut, sa1, sb1, hc, hf1, ht1, _⟩)
            · cases h
            · cases hc
              rw [hf] at hf1
              simp only [Prod.mk.injEq, Except.ok.injEq] at hf1
              obtain ⟨_, rfl⟩ := hf1
              rw [ht] at ht1
              simp at ht1
        | ok userTo =>
          simp only [PipelineConnection, hnew, hf, ht, pipelineRules_dispatched]
          constructor
          · intro h
            exact Or.inr ⟨c, userFrom, userTo, sa, sb, rfl, hf, ht, h⟩
          · rintro (⟨h, _⟩ | ⟨c1, uf, ut, sa1, sb1, hc, hf1, ht1, hd⟩)
            · cases h
            · cases hc
              rw [hf] at hf1
              simp only [Prod.mk.injEq, Except.ok.injEq] at hf1
              obtain ⟨rfl, rfl⟩ := hf1
              rw [ht] at ht1
              simp only [Prod.mk.injEq, Except.ok.injEq] at ht1
              obtain ⟨rfl, rfl⟩ := ht1
              exact hd
  · intro change rules
    cases hnew : change.New with
    | none =>
      simp only [PipelineEvent, hnew]
      constructor
      · intro h; simp at h
      · rintro ⟨e, _, _, he, _⟩
        cases he
    | some e =>
      rcases hctx : eventContext objects users currentApp e s with ⟨rc, sa⟩
      cases rc with
      | error err =>
        simp only [PipelineEvent, hnew, hctx]
        constructor
        · intro h; simp at h
        · rintro ⟨e1, context, sa1, he, hc, _⟩
          cases he; rw [hctx] at hc; simp at hc
      | ok context =>
        simp only [PipelineEvent, hnew, hctx, pipelineRules_dispatched]
        constructor
        · intro h
          exact ⟨e, context, sa, rfl, hctx, h⟩
        · rintro ⟨e1, context1, sa1, he, hc, hd⟩
          cases he
          rw [hctx] at hc
          simp only [Prod.mk.injEq, Except.ok.injEq] at hc
          obtain ⟨rfl, rfl⟩ := hc
          exact hd
  · intro change rules
    cases hnew : change.New with
    | none =>
      simp only [PipelineObject, hnew, Prod.mk.injEq, Result.ok.injEq]
      constructor
      · rintro ⟨h1, h2⟩
        exact Or.inl ⟨trivial, h1.symm, h2.symm⟩
      · rintro (⟨_, h1, h2⟩ | ⟨o, _, _, ho, _⟩)
        · exact ⟨h1.symm, h2.symm⟩
        · cases ho
    | some o =>
      rcases hctx : objectContext objects users currentApp o s with ⟨rc, sa⟩
      cases rc with
      | error err =>
        simp only [PipelineObject, hnew, hctx]
        constructor
        · intro h; simp at h
        · rintro (⟨h, _⟩ | ⟨o1, context, sa1, ho, hc, _⟩)
          · cases h
          · cases ho; rw [hctx] at hc; simp at hc
      | ok context =>
        simp only [PipelineObject, hnew, hctx, pipelineRules_dispatched]
        constructor
        · intro h
          exact Or.inr ⟨o, context, sa, rfl, hctx, h⟩
        · rintro (⟨h, _⟩ | ⟨o1, context1, sa1, ho, hc, hd⟩)
          · cases h
          · cases ho
            rw [hctx] at hc
            simp only [Prod.mk.injEq, Except.ok.injEq] at hc
            obtain ⟨rfl, rfl⟩ := hc
            exact hd

/-- Scenarios A, B and C for C6, each with a non-matching rule in front: the one message
for user 9, the one message for the parent owner 11, and the messages for the friends 4
and 5 in the order the resolver returned them. -/
theorem Pipeline_message_ordering_witness :
    ((changeA.New = none ∧ [messageA] = [] ∧ world0 = world0) ∨
      ∃ c userFrom userTo sa sb, changeA.New = some c ∧
        tableUsers.UserFetch appA1 c.FromID world0 = (.ok userFrom, sa) ∧
        tableUsers.UserFetch appA1 c.ToID sa = (.ok userTo, sb) ∧
        Dispatched
          (fun q s => (recipientsConnection appA1
            { Conenction := c, From := userFrom, To := userTo } q, s))
          (compileTemplate (literalTemplate contextConnection)
            { Conenction := c, From := userFrom, To := userTo })
          changeA [ruleNever Connection, ruleA] sb [messageA] world0) ∧
    (∃ e context sa, changeB.New = some e ∧
      eventContext tableObjects tableUsers appA1 e world0 = (.ok context, sa) ∧
      Dispatched (fun q s => (recipientsEvent appA1 context q, s))
        (compileTemplate (literalTemplate contextEvent) context)
        changeB [ruleNever Event, ruleB] sa [messageB] world0) ∧
    ((changeC.New = none ∧ messagesC = [] ∧ worldC = world0) ∨
      ∃ o context sa, changeC.New = some o ∧
        objectContext tableObjects tableUsers appA1 o world0 = (.ok context, sa) ∧
        Dispatched
          (objectRecipients tableHost (literalTemplate contextObject) tableConnections
            tableObjects tableUsers appA1 context)
          (compileTemplate (literalTemplate contextObject) context)
          changeC [ruleNever Object, ruleC] sa messagesC worldC) :=
  ⟨((Pipeline_message_ordering tableHost (literalTemplate contextConnection)
      (literalTemplate contextEvent) (literalTemplate contextObject) tableConnections
      tableObjects tableUsers appA1 [messageA] world0 world0).1
      changeA [ruleNever Connection, ruleA]).1 rfl,
   ((Pipeline_message_ordering tableHost (literalTemplate contextConnection)
      (literalTemplate contextEvent) (literalTemplate contextObject) tableConnections
      tableObjects tableUsers appA1 [messageB] world0 world0).2.1
      changeB [ruleNever Event, ruleB]).1 rfl,
   ((Pipeline_message_ordering tableHost (literalTemplate contextConnection)
      (literalTemplate contextEvent) (literalTemplate contextObject) tableConnections
      tableObjects tableUsers appA1 messagesC world0 worldC).2.2
      changeC [ruleNever Object, ruleC]).1 rfl⟩

/-- Related lists: every element on the left has a related element on the right. -/
theorem forall₂_mem_left {α β : Type} {R : α → β → Prop} {l1 : List α} {l2 : List β}
    (h : List.Forall₂ R l1 l2) : ∀ a ∈ l1, ∃ b ∈ l2, R a b := by
  induction h with
  | nil => intro a ha; cases ha
  | cons hab _ ih =>
    intro a ha
    rcases List.mem_cons.1 ha with rfl | ha
    · exact ⟨_, List.mem_cons_self _ _, hab⟩
    · obtain ⟨b, hb, hr⟩ := ih a ha
      exact ⟨b, List.mem_cons_of_mem _ hb, hr⟩

/-- Under the ordering contract every message is addressed to a user some resolver call
returned. -/
theorem Dispatched.recipient {α σ : Type}
    {resolve : Query → σ → Result (List (Option User)) × σ}
    {compile : String → Except Error String} {change : StateChange α}
    {rules : List (Rule α)} {s s1 : σ} {ms : List Message}
    (h : Dispatched resolve compile change rules s ms s1) :
    ∀ m ∈ ms, ∃ (q : Query) (us : List User) (sa sb : σ) (u : User),
      resolve q sa = (.ok (us.map some), sb) ∧ u ∈ us ∧ m.Recipient = u.ID := by
  obtain ⟨resolved, hres, hf⟩ := h
  intro m hm
  obtain ⟨p, hp, hE⟩ := forall₂_mem_left hf m hm
  simp only [expand, List.mem_flatMap, List.mem_map] at hp
  obtain ⟨pr, hpr, u, hu, rfl⟩ := hp
  obtain ⟨sa, sb, hcall⟩ := hres.mem pr hpr
  exact ⟨pr.1.Query, pr.2, sa, sb, u, hcall, hu, hE.1⟩

/-- The context of `PipelineObject` holds the user fetched for the object's OwnerID. -/
theorem objectContext_Owner {σ : Type} (objects : ObjectService σ) (users : UserService σ)
    (currentApp : App) (o : Object) (s s1 : σ) (context : contextObject)
    (h : objectContext objects users currentApp o s = (.ok context, s1)) :
    ∃ sa, users.UserFetch currentApp o.OwnerID s = (.ok context.Owner, sa) := by
  unfold objectContext at h
  rcases hf : users.UserFetch currentApp o.OwnerID s with ⟨r, sa⟩
  rw [hf] at h
  cases r with
  | error err => simp at h
  | ok owner =>
    refine ⟨sa, ?_⟩
    simp only at h
    split at h
    · rcases hp : objectFetch objects currentApp o.ObjectID sa with ⟨rp, sb⟩
      rw [hp] at h
      cases rp with
      | error err => simp at h
      | ok parent =>
        simp only at h
        rcases hpo : users.UserFetch currentApp parent.OwnerID sb with ⟨rpo, sc⟩
        rw [hpo] at h
        cases rpo with
        | error err => simp at h
        | ok parentOwner =>
          simp only [Prod.mk.injEq, Except.ok.injEq] at h
          rw [← h.1]
    · simp only [Prod.mk.injEq, Except.ok.injEq] at h
      rw [← h.1]

/-- The users `objectRecipients` returns are among the ids that passed `filterIDs`: none
of them is the owner of the context. -/
theorem objectRecipients_not_owner {τ σ : Type} (host : Host σ)
    (tpl : Template τ contextObject) (connections : ConnectionService σ)
    (objects : ObjectService σ) (users : UserService σ)
    (hList : ∀ ns ids s us s1, users.ListFromIDs ns ids s = (.ok us, s1) →
      ∀ u ∈ us, u.ID ∈ ids)
    (currentApp : App) (context : contextObject) (q : Query) (s s1 : σ) (us : List User)
    (h : objectRecipients host tpl connections objects users currentApp context q s =
      (.ok (us.map some), s1)) :
    ∀ u ∈ us, u.ID ≠ context.Owner.ID := by
  unfold objectRecipients at h
  rcases hl : objectRecipientsLoop host tpl connections objects currentApp context q [] s
    with ⟨r, sa⟩
  rw [hl] at h
  cases r with
  | err e => simp at h
  | nilDeref => simp at h
  | ok ids =>
    simp only at h
    rcases hu : users.ListFromIDs currentApp.Namespace (filterIDs ids [context.Owner.ID]) sa
      with ⟨ru, sb⟩
    rw [hu] at h
    cases ru with
    | error err => simp at h
    | ok us1 =>
      simp only [Prod.mk.injEq, Result.ok.injEq] at h
      have hus : us1 = us := by
        have := h.1
        exact (List.map_injective_iff.2 (Option.some_injective _)) this
      subst hus
      intro u hmem
      have hin := hList _ _ _ _ _ hu u hmem
      rw [filterIDs_eq_filter, List.mem_filter] at hin
      simpa using hin.2

/-- C5 (self-exclusion): when the bulk lookup of the user store returns only users whose
ids are among the requested ids, a successful `PipelineObject` on a change with non-nil
New has fetched the owner for `New.OwnerID`, and no message of the result is addressed to
the ID of that owner. -/
theorem PipelineObject_self_exclusion {τ σ : Type} (host : Host σ)
    (tpl : Template τ contextObject) (connections : ConnectionService σ)
    (objects : ObjectService σ) (users : UserService σ)
    (hList : ∀ ns ids s us s1, users.ListFromIDs ns ids s = (.ok us, s1) →
      ∀ u ∈ us, u.ID ∈ ids)
    (currentApp : App) (change : StateChange Object) (rules : List (Rule Object))
    (o : Object) (s s1 : σ) (ms : List Message) (hNew : change.New = some o)
    (h : PipelineObject host tpl connections objects users currentApp change rules s =
      (.ok ms, s1)) :
    ∃ owner sa, users.UserFetch currentApp o.OwnerID s = (.ok owner, sa) ∧
      ∀ m ∈ ms, m.Recipient ≠ owner.ID := by
  unfold PipelineObject at h
  rw [hNew] at h
  simp only at h
  rcases hctx : objectContext objects users currentApp o s with ⟨rc, sc⟩
  rw [hctx] at h
  cases rc with
  | error err => simp at h
  | ok context =>
    simp only at h
    obtain ⟨sa, howner⟩ := objectContext_Owner objects users currentApp o s sc context hctx
    refine ⟨context.Owner, sa, howner, ?_⟩
    intro m hm
    obtain ⟨q, us, sx, sy, u, hcall, hu, hrec⟩ :=
      Dispatched.recipient ((pipelineRules_dispatched _ _ _ _ _ _ _).1 h) m hm
    rw [hrec]
    exact objectRecipients_not_owner host tpl connections objects users hList currentApp
      context q sx sy us hcall u hu

/-- The bulk lookup of the scenario user store returns only users of the requested ids. -/
theorem tableUsers_ListFromIDs (ns : String) (ids : List Nat) (s : PipelineWorld)
    (us : List User) (s1 : PipelineWorld)
    (h : tableUsers.ListFromIDs ns ids s = (.ok us, s1)) : ∀ u ∈ us, u.ID ∈ ids := by
  simp only [tableUsers, Prod.mk.injEq, Except.ok.injEq] at h
  intro u hu
  rw [← h.1, List.mem_filterMap] at hu
  obtain ⟨id, hid, hfind⟩ := hu
  have := List.find?_some hfind
  simp only [beq_iff_eq] at this
  rw [this]
  exact hid

/-- Scenario C for C5: owner 3, `ownerFriends` returns 3, 4 and 5; the recipients are
exactly 4 and 5, and none of them is the fetched owner. -/
theorem PipelineObject_self_exclusion_witness :
    PipelineObject tableHost (literalTemplate contextObject) tableConnections tableObjects
        tableUsers appA1 changeC [ruleC] world0 = (.ok messagesC, worldC) ∧
    messagesC.map (fun m => m.Recipient) = [4, 5] ∧
    ∃ owner sa, tableUsers.UserFetch appA1 3 world0 = (.ok owner, sa) ∧
      ∀ m ∈ messagesC, m.Recipient ≠ owner.ID :=
  ⟨rfl, rfl,
   PipelineObject_self_exclusion tableHost (literalTemplate contextObject) tableConnections
     tableObjects tableUsers tableUsers_ListFromIDs appA1 changeC [ruleC]
     { ID := 60, ObjectID := 0, OwnerID := 3 } world0 worldC messagesC rfl rfl⟩

/-- C9 fails on the code: for an event whose ObjectID is zero the context has no
ParentOwner, `recipientsEvent` still appends the nil pointer for the `parentOwner` tag,
and `PipelineEvent` ends in a nil pointer dereference on `r.ID` instead of succeeding
without a message. -/
theorem PipelineEvent_parentOwner_absent :
    eventContext tableObjects tableUsers appA1 { ID := 1, ObjectID := 0, UserID := 5 } world0 =
      (.ok { Event := { ID := 1, ObjectID := 0, UserID := 5 },
             Owner := { ID := 5, Username := "erin" },
             Parent := none, ParentOwner := none }, world0) ∧
    recipientsEvent appA1
      { Event := { ID := 1, ObjectID := 0, UserID := 5 },
        Owner := { ID := 5, Username := "erin" },
        Parent := none, ParentOwner := none } [("parentOwner", "")] = .ok [none] ∧
    PipelineEvent (literalTemplate contextEvent) tableObjects tableUsers appA1 changeB0
      [ruleB] world0 = (.nilDeref, world0) :=
  ⟨rfl, rfl, rfl⟩

/-- The ids 3, 4, 5 of scenario C for C10: filtered by the owner 3 they are 4 and 5,
without duplicates, and they are what the resolver asks the user store for. -/
theorem filterIDs_spec_witness :
    filterIDs [3, 4, 5] [3] = [4, 5] ∧ (filterIDs [3, 4, 5] [3]).Nodup ∧
    4 ∈ filterIDs [3, 4, 5] [3] ∧
    objectRecipients tableHost (literalTemplate contextObject) tableConnections tableObjects
        tableUsers appA1 contextC [("ownerFriends", "")] world0 =
      (.ok [some { ID := 4, Username := "dave" }, some { ID := 5, Username := "erin" }],
        worldC) :=
  ⟨(filterIDs_spec [3, 4, 5] [3]).1,
   (filterIDs_spec [3, 4, 5] [3]).2.2.2.2.1 (by decide),
   (filterIDs_spec [3, 4, 5] [3]).2.2.1 4 (by decide) (by decide),
   (filterIDs_spec [3, 4, 5] [3]).2.2.2.2.2 tableHost (literalTemplate contextObject)
     tableConnections tableObjects tableUsers appA1 contextC [("ownerFriends", "")]
     world0 world0 rfl⟩

end Snaas
